import Mathlib

/-!
Verification development for the multi-agent customer-service repository.

The Python sources are shallowly embedded:
  * text is `List Char` (`Str` below);
  * decoded JSON values (the results of `json.loads`) are the inductive `Json`
    (JSON numbers are modelled as integers — no claim involves floats);
  * Python runtime failures (AttributeError, TypeError, ...) are modelled by
    `Except PyErr`;
  * the behaviour of Python primitives that the source leans on (`dict.get`,
    truthiness, `in`, iteration, `str()`, `int()`, `str.lower`, `str.strip`,
    substring `in`) is given by the `py*` functions below.
-/

set_option maxHeartbeats 1000000

abbrev Str := List Char

/-- Decoded JSON values, as produced by `json.loads` in the Python sources.
Numbers are modelled as integers. -/
inductive Json where
  | null
  | bool (b : Bool)
  | num (n : Int)
  | str (s : Str)
  | arr (elems : List Json)
  | obj (fields : List (Str × Json))

/-- Decimal digit character for a value below ten. -/
def digitChar (d : Nat) : Char := Char.ofNat (48 + d)

/-- Decimal digits of a natural number (fuel-indexed helper). -/
def natDigitsAux : Nat → Nat → Str
  | 0, _ => []
  | fuel + 1, n => if n < 10 then [digitChar n] else natDigitsAux fuel (n / 10) ++ [digitChar (n % 10)]

/-- Decimal digits of a natural number. -/
def natDigits (n : Nat) : Str := natDigitsAux (n + 1) n

/-- Decimal rendering of an integer, as Python `str(int)` produces it. -/
def intRepr (n : Int) : Str := if n < 0 then '-' :: natDigits n.natAbs else natDigits n.toNat

/-- Numeric value of a list of decimal digit characters, as Python `int` reads it. -/
def digitsToNat (ds : Str) : Nat := ds.foldl (fun a c => 10 * a + (c.toNat - 48)) 0

/-- Whitespace recognised by Python `str.strip` (ASCII part). -/
def isSpaceChar (c : Char) : Bool :=
  c = ' ' || c = '\t' || c = '\n' || c = '\r' || c = Char.ofNat 11 || c = Char.ofNat 12

/-- Python `str.strip()`. -/
def stripL (s : Str) : Str := (((s.dropWhile isSpaceChar).reverse).dropWhile isSpaceChar).reverse

/-- Python `str.lower()` (ASCII). -/
def lowerL (s : Str) : Str := s.map Char.toLower

/-- Python substring test `needle in hay`. -/
def containsSub (needle : Str) : Str → Bool
  | [] => needle.isEmpty
  | c :: t => needle.isPrefixOf (c :: t) || containsSub needle t

/-- Python `sep.join` (no separator before the first or after the last element). -/
def joinSep (sep : Str) : List Str → Str
  | [] => []
  | [x] => x
  | x :: y :: xs => x ++ sep ++ joinSep sep (y :: xs)

/-- Python `"\n".join`. -/
def joinNl (l : List Str) : Str := joinSep ['\n'] l

/-- String-content escaping used by `json.dumps` (the characters the repo can emit). -/
def escChar (c : Char) : Str :=
  if c = '\\' then ['\\', '\\']
  else if c = Char.ofNat 34 then ['\\', Char.ofNat 34]
  else if c = '\n' then ['\\', 'n']
  else if c = '\r' then ['\\', 'r']
  else if c = '\t' then ['\\', 't']
  else [c]

/-- Escaped body of a JSON string literal. -/
def escStr (s : Str) : Str := s.flatMap escChar

mutual

/-- Compact model of Python `json.dumps` on decoded values. -/
def dumps : Json → Str
  | Json.null => ['n', 'u', 'l', 'l']
  | Json.bool true => ['t', 'r', 'u', 'e']
  | Json.bool false => ['f', 'a', 'l', 's', 'e']
  | Json.num n => intRepr n
  | Json.str s => Char.ofNat 34 :: escStr s ++ [Char.ofNat 34]
  | Json.arr l => '[' :: dumpsArr l ++ [']']
  | Json.obj kvs => Char.ofNat 123 :: dumpsObj kvs ++ [Char.ofNat 125]

/-- Comma-separated serialization of array elements. -/
def dumpsArr : List Json → Str
  | [] => []
  | [x] => dumps x
  | x :: y :: xs => dumps x ++ ',' :: dumpsArr (y :: xs)

/-- Comma-separated serialization of object members. -/
def dumpsObj : List (Str × Json) → Str
  | [] => []
  | [(k, v)] => Char.ofNat 34 :: escStr k ++ Char.ofNat 34 :: ':' :: dumps v
  | (k, v) :: m :: kvs =>
      Char.ofNat 34 :: escStr k ++ Char.ofNat 34 :: ':' :: dumps v ++ ',' :: dumpsObj (m :: kvs)

end

/-- Whitespace skipped between JSON tokens. -/
def isWsChar (c : Char) : Bool := c = ' ' || c = '\t' || c = '\n' || c = '\r'

/-- Skip JSON inter-token whitespace. -/
def skipWs (s : Str) : Str := s.dropWhile isWsChar

/-- Unescape one JSON string escape character. -/
def unescape (e : Char) : Option Char :=
  if e = Char.ofNat 34 then some (Char.ofNat 34)
  else if e = '\\' then some '\\'
  else if e = '/' then some '/'
  else if e = 'n' then some '\n'
  else if e = 't' then some '\t'
  else if e = 'r' then some '\r'
  else none

/-- Body of a JSON string literal after the opening quote; returns content and rest. -/
def strBody : Str → Option (Str × Str)
  | [] => none
  | c :: rest =>
      if c = Char.ofNat 34 then some ([], rest)
      else if c = '\\' then
        match rest with
        | e :: rest2 =>
            match strBody rest2 with
            | some (s, r) =>
                match unescape e with
                | some ec => some (ec :: s, r)
                | none => none
            | none => none
        | [] => none
      else
        match strBody rest with
        | some (s, r) => some (c :: s, r)
        | none => none

/-- A JSON string literal including the opening quote. -/
def parseStringLit : Str → Option (Str × Str)
  | [] => none
  | c :: rest => if c = Char.ofNat 34 then strBody rest else none

mutual

/-- Recursive-descent JSON value parser (model of `json.loads`), fuel-indexed. -/
def parseVal : Nat → Str → Option (Json × Str)
  | 0, _ => none
  | _ + 1, [] => none
  | fuel + 1, c :: rest =>
      if c = Char.ofNat 123 then
        match skipWs rest with
        | [] => none
        | d :: r2 =>
            if d = Char.ofNat 125 then some (Json.obj [], r2)
            else
              match parseMembers fuel (skipWs rest) with
              | some (kvs, r3) => some (Json.obj kvs, r3)
              | none => none
      else if c = '[' then
        match skipWs rest with
        | [] => none
        | d :: r2 =>
            if d = ']' then some (Json.arr [], r2)
            else
              match parseElems fuel (skipWs rest) with
              | some (es, r3) => some (Json.arr es, r3)
              | none => none
      else if c = Char.ofNat 34 then
        match strBody rest with
        | some (sv, r2) => some (Json.str sv, r2)
        | none => none
      else if c = 't' then
        if rest.take 3 = ['r', 'u', 'e'] then some (Json.bool true, rest.drop 3) else none
      else if c = 'f' then
        if rest.take 4 = ['a', 'l', 's', 'e'] then some (Json.bool false, rest.drop 4) else none
      else if c = 'n' then
        if rest.take 3 = ['u', 'l', 'l'] then some (Json.null, rest.drop 3) else none
      else if c = '-' then
        match rest.takeWhile Char.isDigit with
        | [] => none
        | ds => some (Json.num (-(digitsToNat ds : Int)), rest.dropWhile Char.isDigit)
      else if c.isDigit then
        some (Json.num (digitsToNat ((c :: rest).takeWhile Char.isDigit)),
              (c :: rest).dropWhile Char.isDigit)
      else none

/-- Members of a JSON object, starting at the first key. -/
def parseMembers : Nat → Str → Option (List (Str × Json) × Str)
  | 0, _ => none
  | fuel + 1, s =>
    match parseStringLit s with
    | none => none
    | some (k, s1) =>
      match skipWs s1 with
      | ':' :: s3 =>
        match parseVal fuel (skipWs s3) with
        | none => none
        | some (v, s4) =>
          match skipWs s4 with
          | [] => none
          | c :: s6 =>
              if c = ',' then
                match parseMembers fuel (skipWs s6) with
                | some (kvs, s7) => some ((k, v) :: kvs, s7)
                | none => none
              else if c = Char.ofNat 125 then some ([(k, v)], s6)
              else none
      | _ => none

/-- Elements of a JSON array, starting at the first element. -/
def parseElems : Nat → Str → Option (List Json × Str)
  | 0, _ => none
  | fuel + 1, s =>
    match parseVal fuel s with
    | none => none
    | some (v, s1) =>
      match skipWs s1 with
      | [] => none
      | c :: s2 =>
          if c = ',' then
            match parseElems fuel (skipWs s2) with
            | some (es, s3) => some (v :: es, s3)
            | none => none
          else if c = ']' then some ([v], s2)
          else none

end

/-- Model of `json.loads`: parse a full document, requiring only trailing whitespace. -/
def jsonParse (s : Str) : Option Json :=
  match parseVal (s.length + 1) (skipWs s) with
  | some (v, rest) => if skipWs rest = [] then some v else none
  | none => none

/-- Python exceptions that the embedded code can raise. -/
inductive PyErr where
  | attrError
  | typeError
  | keyError
  | jsonDecodeError
  | valueError (msg : Str)
  | runtimeError (msg : Str)
deriving DecidableEq

/-- Python truthiness of a decoded JSON value. -/
def truthy : Json → Bool
  | Json.null => false
  | Json.bool b => b
  | Json.num n => n != 0
  | Json.str s => !s.isEmpty
  | Json.arr l => !l.isEmpty
  | Json.obj kvs => !kvs.isEmpty

/-- Lookup in a decoded JSON object; with duplicate keys the last wins (dict semantics). -/
def objLookup (kvs : List (Str × Json)) (k : Str) : Option Json :=
  match kvs.reverse.find? (fun p => p.1 == k) with
  | some p => some p.2
  | none => none

/-- Python `v.get(k, d)`: raises AttributeError unless `v` is a dict. -/
def pyGetD (v : Json) (k : Str) (d : Json) : Except PyErr Json :=
  match v with
  | Json.obj kvs => .ok ((objLookup kvs k).getD d)
  | _ => .error .attrError

/-- Python `v.get(k)` (default `None`). -/
def pyGet (v : Json) (k : Str) : Except PyErr Json := pyGetD v k Json.null

/-- Python subscript `v[k]` for a string key. -/
def pyIndex (v : Json) (k : Str) : Except PyErr Json :=
  match v with
  | Json.obj kvs =>
      match objLookup kvs k with
      | some x => .ok x
      | none => .error .keyError
  | _ => .error .typeError

/-- Python equality of a decoded value with a string literal. -/
def pyEqStr (v : Json) (s : Str) : Bool :=
  match v with
  | Json.str t => t == s
  | _ => false

/-- Python `k in v` for a string `k`. -/
def pyIn (k : Str) (v : Json) : Except PyErr Bool :=
  match v with
  | Json.obj kvs => .ok (objLookup kvs k).isSome
  | Json.arr l => .ok (l.any (fun e => pyEqStr e k))
  | Json.str s => .ok (containsSub k s)
  | _ => .error .typeError

/-- Python iteration `for x in v` (dicts yield their keys, strings their characters). -/
def pyIter (v : Json) : Except PyErr (List Json) :=
  match v with
  | Json.arr l => .ok l
  | Json.str s => .ok (s.map (fun c => Json.str [c]))
  | Json.obj kvs => .ok (kvs.map (fun p => Json.str p.1))
  | _ => .error .typeError

/-- Python `str()` of a decoded value (container reprs abbreviated: no claim depends
on the exact repr of a list or dict, only on it not being a priority keyword). -/
def pyStr : Json → Str
  | Json.null => ['N', 'o', 'n', 'e']
  | Json.bool true => ['T', 'r', 'u', 'e']
  | Json.bool false => ['F', 'a', 'l', 's', 'e']
  | Json.num n => intRepr n
  | Json.str s => s
  | Json.arr _ => ['[', '.', '.', '.', ']']
  | Json.obj _ => [Char.ofNat 123, '.', '.', '.', Char.ofNat 125]

/-- Python `int()` of a decoded value. -/
def pyInt : Json → Except PyErr Int
  | Json.bool b => .ok (if b then 1 else 0)
  | Json.num n => .ok n
  | Json.str s =>
      match stripL s with
      | [] => .error (.valueError s)
      | '-' :: ds =>
          if ds ≠ [] ∧ ds.all Char.isDigit then .ok (-(digitsToNat ds : Int))
          else .error (.valueError s)
      | ds =>
          if ds.all Char.isDigit then .ok (digitsToNat ds)
          else .error (.valueError s)
  | _ => .error .typeError

example : jsonParse (" \x7b\"a\": [1, true, \"x\"]\x7d ".toList) =
    some (Json.obj [(['a'], Json.arr [Json.num 1, Json.bool true, Json.str ['x']])]) := by
  rfl

example : jsonParse ("DATA call failed: X".toList) = none := by rfl

example : containsSub ("open".toList) ("the open door".toList) = true := by decide

/-!
## Intent classifier (`router_agent_server.py`: `extract_customer_id`, `detect_intent`)

The two regexes are embedded as explicit scanners:
`\bcustomer\s*(?:id)?\s*[:#]?\s*(\d+)\b` (case-insensitive, leftmost match,
greedy with backtracking over the optional `id` and `[:#]`) and `\bID\s*(\d+)\b`.
`\w` is modelled as ASCII letters, digits and underscore.
-/

/-- A regex word character (`\w`, ASCII model). -/
def isWordChar (c : Char) : Bool := c.isAlpha || c.isDigit || c = '_'

/-- Case-insensitive prefix test (the pattern side is given in lowercase). -/
def startsWithCI : Str → Str → Bool
  | [], _ => true
  | _ :: _, [] => false
  | p :: ps, c :: cs => (p.toLower == c.toLower) && startsWithCI ps cs

/-- Skip `\s*`. -/
def dropSpaces (s : Str) : Str := s.dropWhile isSpaceChar

/-- Match `(\d+)\b`: a maximal digit run followed by a non-word character or the end. -/
def tryDigits (s : Str) : Option Nat :=
  match s.takeWhile Char.isDigit with
  | [] => none
  | ds =>
      match s.dropWhile Char.isDigit with
      | [] => some (digitsToNat ds)
      | c :: _ => if isWordChar c then none else some (digitsToNat ds)

/-- Regex alternation on match results: the first alternative wins. -/
def optOr : Option Nat → Option Nat → Option Nat
  | some n, _ => some n
  | none, b => b

/-- Match `[:#]?\s*(\d+)\b` at an already-space-stripped position, with
backtracking over the optional separator. -/
def afterIdPartAt : Str → Option Nat
  | [] => none
  | c :: r =>
      if c = ':' || c = '#' then optOr (tryDigits (dropSpaces r)) (tryDigits (c :: r))
      else tryDigits (c :: r)

/-- Match `\s*[:#]?\s*(\d+)\b`. -/
def afterIdPart (s2 : Str) : Option Nat := afterIdPartAt (dropSpaces s2)

/-- Match `\s*(?:id)?\s*[:#]?\s*(\d+)\b` after the literal `customer`,
with backtracking over the optional `id`. -/
def afterCustomer (s : Str) : Option Nat :=
  let s1 := dropSpaces s
  if startsWithCI ("id".toList) s1 then optOr (afterIdPart (s1.drop 2)) (afterIdPart s1)
  else afterIdPart s1

/-- Leftmost match of the first customer-id regex; `prev` records whether the
previous character is a word character (for `\b`). -/
def searchPat1 : Bool → Str → Option Nat
  | _, [] => none
  | prev, c :: rest =>
      optOr (if !prev && startsWithCI ("customer".toList) (c :: rest)
             then afterCustomer ((c :: rest).drop 8) else none)
            (searchPat1 (isWordChar c) rest)

/-- Leftmost match of `\bID\s*(\d+)\b` (case-insensitive). -/
def searchPat2 : Bool → Str → Option Nat
  | _, [] => none
  | prev, c :: rest =>
      optOr (if !prev && startsWithCI ("id".toList) (c :: rest)
             then tryDigits (dropSpaces ((c :: rest).drop 2)) else none)
            (searchPat2 (isWordChar c) rest)

/-- `extract_customer_id` from `router_agent_server.py`: the first regex is
searched first; if it fails the second is tried; the captured digits are the
returned integer. -/
def extract_customer_id (text : Str) : Option Int :=
  (optOr (searchPat1 false text) (searchPat2 false text)).map (fun n => (n : Int))

/-- The intent vector returned by `detect_intent` (five boolean flags). -/
structure IntentVector where
  has_customer_id : Bool
  account_help : Bool
  cancel : Bool
  billing : Bool
  list_active_open : Bool
deriving DecidableEq

/-- Keyword group for the `account_help` flag. -/
def accountKeywords : List Str :=
  [("account").toList, ("upgrade").toList, ("login").toList, ("access").toList, ("help").toList]

/-- Keyword group for the `cancel` flag. -/
def cancelKeywords : List Str :=
  [("cancel").toList, ("cancellation").toList, ("subscription").toList]

/-- Keyword group for the `billing` flag. -/
def billingKeywords : List Str :=
  [("billing").toList, ("charge").toList, ("charged").toList, ("invoice").toList, ("payment").toList]

/-- Does any keyword of the group occur in the (already lowercased) text? -/
def anyKeyword (t : Str) (ks : List Str) : Bool := ks.any (fun k => containsSub k t)

/-- `detect_intent` from `router_agent_server.py`. -/
def detect_intent (text : Str) : IntentVector :=
  let t := lowerL text
  { has_customer_id := (extract_customer_id text).isSome
    account_help := anyKeyword t accountKeywords
    cancel := anyKeyword t cancelKeywords
    billing := anyKeyword t billingKeywords
    list_active_open :=
      containsSub (("active customers").toList) t &&
        (containsSub (("open ticket").toList) t || containsSub (("open tickets").toList) t) }

/-!
## Markdown table formatter (`_md_escape`, `_make_md_table`)
-/

/-- `str.replace("\n", " ")`, one character at a time. -/
def collapseNl (c : Char) : Char := if c = '\n' then ' ' else c

/-- `str.replace("|", "\\|")`, one character at a time. -/
def escPipeChar (c : Char) : Str := if c = '|' then ['\\', '|'] else [c]

/-- The two replaces of `_md_escape`, before the final strip. -/
def mdEscapeCore (s : Str) : Str := (s.map collapseNl).flatMap escPipeChar

/-- `_md_escape` on an actual string:
`text.replace("\n", " ").replace("|", "\\|").strip()`. -/
def md_escape_str (s : Str) : Str := stripL (mdEscapeCore s)

/-- `_md_escape(value)` for a decoded JSON value: `(text or "")` yields `""` for
falsy values; a truthy non-string has no `.replace` and raises AttributeError. -/
def md_escape_arg (v : Json) : Except PyErr Str :=
  match v with
  | Json.str s => .ok (md_escape_str s)
  | w => if truthy w then .error .attrError else .ok []

/-- One row of the fan-out report (the dict built in `handle_router`, Scenario 3). -/
structure Row where
  customer_id : Json
  customer_name : Json
  email : Json
  ticket_id : Json
  priority : Json
  status : Json
  issue : Json

/-- The fixed table header (both markdown lines, exactly as in the source). -/
def tableHeader : Str :=
  ("| customer_id | customer_name | email | ticket_id | priority | status | issue |\n|---:|---|---|---:|---|---|---|").toList

/-- The placeholder row emitted for an empty row list. -/
def placeholderTail : Str :=
  ("\n| (none) | (none) | (none) | (none) | (none) | (none) | No open tickets found |").toList

/-- One formatted data row. The source escapes `customer_name`, `email`,
`priority`, `status` and `issue` but inserts `customer_id` and `ticket_id`
unescaped (via `format`, i.e. through `str()`). -/
def make_md_row (r : Row) : Except PyErr Str := do
  let name ← md_escape_arg r.customer_name
  let email ← md_escape_arg r.email
  let issue ← md_escape_arg r.issue
  .ok (("| ").toList ++ pyStr r.customer_id ++ (" | ").toList ++ name ++ (" | ").toList ++
       email ++ (" | ").toList ++ pyStr r.ticket_id ++ (" | ").toList ++
       md_escape_str (pyStr r.priority) ++ (" | ").toList ++ md_escape_str (pyStr r.status) ++
       (" | ").toList ++ issue ++ (" |").toList)

/-- `_make_md_table` from `router_agent_server.py`. -/
def make_md_table (rows : List Row) : Except PyErr Str :=
  if rows.isEmpty then .ok (tableHeader ++ placeholderTail)
  else do
    let lines ← rows.mapM make_md_row
    .ok (joinNl (tableHeader :: lines))

/-!
## Reply extraction (`extract_text_from_a2a`) and `_safe_json_loads`
-/

/-- `_safe_json_loads`: `json.loads` with every exception turned into `None`. -/
def safe_json_loads (s : Str) : Option Json := jsonParse s

/-- The text-bearing values collected from the parts list (in order):
`p.get("text", "")` when `p.get("kind") == "text"`, else `p["text"]` when
present; non-dict parts are skipped. -/
def collectTexts : List Json → List Json
  | [] => []
  | p :: ps =>
      match p with
      | Json.obj kvs =>
          if pyEqStr ((objLookup kvs (("kind").toList)).getD Json.null) (("text").toList) then
            ((objLookup kvs (("text").toList)).getD (Json.str [])) :: collectTexts ps
          else
            match objLookup kvs (("text").toList) with
            | some tv => tv :: collectTexts ps
            | none => collectTexts ps
      | _ => collectTexts ps

/-- `"\n".join` requires every joined element to be a string. -/
def jsonAsStr (v : Json) : Except PyErr Str :=
  match v with
  | Json.str s => .ok s
  | _ => .error .typeError

/-- `extract_text_from_a2a` from `router_agent_server.py`. -/
def extract_text_from_a2a (resp : Json) : Except PyErr Str := do
  let b ← pyIn (("result").toList) resp
  if !b then .ok (dumps resp)
  else do
    let res ← pyIndex resp (("result").toList)
    let partsRaw ← pyGetD res (("parts").toList) (Json.arr [])
    let parts := if truthy partsRaw then partsRaw else Json.arr []
    let items ← pyIter parts
    let kept := (collectTexts items).filter truthy
    let strs ← kept.mapM jsonAsStr
    let out := stripL (joinNl strs)
    .ok (if out.isEmpty then dumps resp else out)

/-!
## Downstream agents, `call_agent`, and the four router scenarios

Downstream calls are modelled by an oracle `Env`: for each target agent and
outbound message it yields either the extracted reply text (`a2a_send` +
`extract_text_from_a2a`) or a raised exception (its type name and message).
The two timestamp/config preamble log lines of the source are outside the
embedding (wall clock, environment variables); the per-call log entries are
kept as structured `CallRec`s and rendered exactly as in `call_agent`.
-/

/-- The two downstream agents the router addresses. -/
inductive AgentTag where
  | dataAgent
  | supportAgent
deriving DecidableEq

/-- Result of one downstream call as seen inside `call_agent`'s `try`. -/
inductive CallOutcome where
  | ok (text : Str)
  | fail (ename : Str) (emsg : Str)
deriving DecidableEq

/-- Oracle for the downstream agents. -/
abbrev Env := AgentTag → Str → CallOutcome

/-- One audit-log entry: target label, outbound message, outcome. -/
structure CallRec where
  label : AgentTag
  msg : Str
  outcome : CallOutcome
deriving DecidableEq

/-- The label interpolated into messages and log lines. -/
def labelStr : AgentTag → Str
  | .dataAgent => ("DATA").toList
  | .supportAgent => ("SUPPORT").toList

/-- `call_agent` from `handle_router`: returns `(ok, text)` and its log entry;
on failure the returned text is the failure description. -/
def call_agent (env : Env) (label : AgentTag) (msg : Str) : (Bool × Str) × CallRec :=
  match env label msg with
  | .ok t => ((true, t), ⟨label, msg, .ok t⟩)
  | .fail en em =>
      ((false, labelStr label ++ (" call failed: ").toList ++ en ++ (": ").toList ++ em),
       ⟨label, msg, .fail en em⟩)

/-- The rendered short-log line for one call. -/
def logLine (r : CallRec) : Str :=
  ("[router] ").toList ++ labelStr r.label ++
    (match r.outcome with
     | .ok _ => (" OK: ").toList ++ (md_escape_str r.msg).take 90
     | .fail en em => (" FAIL: ").toList ++ en ++ (": ").toList ++ em)

/-- The `- `-prefixed log lines appended to every final answer. -/
def renderLog (recs : List CallRec) : List Str := recs.map (fun r => ("- ").toList ++ logLine r)

/-- Scenario 3 message to the data agent. -/
def listActiveMsg : Str := ("List active customers").toList

/-- Per-customer ticket-history message. -/
def histMsg (c : Int) : Str := ("Show ticket history for customer ID ").toList ++ intRepr c

/-- Customer-profile message (Scenarios 1 and 2). -/
def getProfileMsg (c : Int) : Str := ("Get customer information for ID ").toList ++ intRepr c

/-- Python f-string rendering of an `Optional[int]`. -/
def optIntStr : Option Int → Str
  | some n => intRepr n
  | none => ("None").toList

/-- `x.get(key) or (x.get("content") or {}).get(key) or []` (used for both
`customers` and `tickets`). -/
def extractListField (aj : Json) (key : Str) : Except PyErr Json := do
  let x1 ← pyGet aj key
  if truthy x1 then .ok x1
  else do
    let c ← pyGet aj (("content").toList)
    let c2 := if truthy c then c else Json.obj []
    let x2 ← pyGet c2 key
    .ok (if truthy x2 then x2 else Json.arr [])

/-- The customers loop of Scenario 3: collect `int(c["id"])` for dict items
carrying an `id`, and the `customers_by_id` assignments in order. -/
def collectIds (customers : Json) : Except PyErr (List Int × List (Int × Json)) := do
  let items ← pyIter customers
  items.foldlM
    (fun (acc : List Int × List (Int × Json)) c =>
      match c with
      | Json.obj kvs =>
          if (objLookup kvs (("id").toList)).isSome then do
            let cid ← pyInt ((objLookup kvs (("id").toList)).getD Json.null)
            Except.ok (acc.1 ++ [cid], acc.2 ++ [(cid, Json.obj kvs)])
          else Except.ok acc
      | _ => Except.ok acc)
    ([], [])

/-- `customers_by_id.get(c_id, {})` with dict overwrite semantics (last wins). -/
def mapGetD (m : List (Int × Json)) (k : Int) : Json :=
  match m.reverse.find? (fun p => p.1 == k) with
  | some p => p.2
  | none => Json.obj []

/-- Parsing of the `List active customers` reply down to ids and the id map. -/
def activeParse (active_text : Str) : Except PyErr (List Int × List (Int × Json)) :=
  match safe_json_loads active_text with
  | none => .ok ([], [])
  | some aj =>
      if truthy aj then do
        let customers ← extractListField aj (("customers").toList)
        collectIds customers
      else .ok ([], [])

/-- The reply text of the initial Scenario 3 call. -/
def activeText (env : Env) : Str := ((call_agent env .dataAgent listActiveMsg).1).2

/-- The log entry of the initial Scenario 3 call. -/
def activeRec (env : Env) : CallRec := (call_agent env .dataAgent listActiveMsg).2

/-- Ids and id map obtained from the initial Scenario 3 call. -/
def activeOf (env : Env) : Except PyErr (List Int × List (Int × Json)) :=
  activeParse (activeText env)

/-- `dict.get(k, d)` on a value known to be used as a dict at this call site. -/
def jget (v : Json) (k : Str) (d : Json) : Json :=
  match v with
  | Json.obj kvs => (objLookup kvs k).getD d
  | _ => d

/-- The `open_rows` dict built for one open ticket. -/
def mkRow (custMap : List (Int × Json)) (cid : Int) (t : Json) : Row :=
  let cust := mapGetD custMap cid
  { customer_id := Json.num cid
    customer_name := jget cust (("name").toList) (Json.str [])
    email := jget cust (("email").toList) (Json.str [])
    ticket_id := jget t (("id").toList) (Json.str [])
    priority := jget t (("priority").toList) (Json.str [])
    status := jget t (("status").toList) (Json.str [])
    issue := jget t (("issue").toList) (Json.str []) }

/-- One iteration of the tickets loop: keep dict tickets whose `status`
equals `"open"`. -/
def ticketStep (custMap : List (Int × Json)) (cid : Int) (acc : List Row) (t : Json) :
    List Row :=
  match t with
  | Json.obj kvs =>
      if pyEqStr ((objLookup kvs (("status").toList)).getD Json.null) (("open").toList) then
        acc ++ [mkRow custMap cid (Json.obj kvs)]
      else acc
  | _ => acc

/-- The tickets loop of Scenario 3. -/
def ticketRows (custMap : List (Int × Json)) (cid : Int) (tickets : List Json) : List Row :=
  tickets.foldl (ticketStep custMap cid) []

/-- Rows contributed by one customer's ticket-history reply text. -/
def rowsForCustomer (custMap : List (Int × Json)) (cid : Int) (hist_text : Str) :
    Except PyErr (List Row) :=
  match safe_json_loads hist_text with
  | none => .ok []
  | some hj =>
      if truthy hj then do
        let tickets ← extractListField hj (("tickets").toList)
        let items ← pyIter tickets
        .ok (ticketRows custMap cid items)
      else .ok []

/-- The per-customer fan-out loop of Scenario 3. -/
def fanLoop (env : Env) (custMap : List (Int × Json)) :
    List Int → Except PyErr (List Row × List CallRec)
  | [] => .ok ([], [])
  | c :: rest => do
      let callRes := call_agent env .dataAgent (histMsg c)
      let rowsC ← rowsForCustomer custMap c ((callRes.1).2)
      let (rows2, recs2) ← fanLoop env custMap rest
      .ok (rowsC ++ rows2, callRes.2 :: recs2)

/-- `priority_rank.get(str(priority).lower(), 9)`. -/
def priorityRank (p : Json) : Nat :=
  let s := lowerL (pyStr p)
  if s = ("high").toList then 0
  else if s = ("medium").toList then 1
  else if s = ("low").toList then 2
  else 9

/-- `int(r.get("customer_id", 0))`; rows built by the router always carry an
integer here, so the total default 0 is never reached on router-built rows. -/
def rowCid (r : Row) : Int :=
  match pyInt r.customer_id with
  | .ok n => n
  | .error _ => 0

/-- The sort order of Scenario 3: ascending (priority rank, customer id). -/
def rowLe (a b : Row) : Prop :=
  priorityRank a.priority < priorityRank b.priority ∨
    (priorityRank a.priority = priorityRank b.priority ∧ rowCid a ≤ rowCid b)

instance : DecidableRel rowLe := fun a b => by unfold rowLe; infer_instance

/-- Python `list.sort(key=...)` is a stable sort; modelled by the (stable)
insertion sort on the lexicographic key order. -/
def sortRows (rows : List Row) : List Row := List.insertionSort rowLe rows

/-- Scenario 3 of `handle_router` (fan-out report). -/
def scenario3 (env : Env) : Except PyErr (Str × List CallRec) := do
  let (ids, custMap) ← activeOf env
  let (rows, recs) ← fanLoop env custMap (ids.take 15)
  let sorted := sortRows rows
  let table ← make_md_table sorted
  let allRecs := activeRec env :: recs
  .ok (joinNl
        ([("Active customers with open tickets (coordinated via Router -> Data, multi-step):").toList,
          [], table, [], ("A2A log (short):").toList] ++ renderLog allRecs),
       allRecs)

/-- The final-answer lines of Scenario 2; the context section appears exactly
when `data_text` is non-empty. -/
def scenario2Lines (data_text support_text : Str) (recs : List CallRec) : List Str :=
  [("Coordinated answer (Router -> Support, with Data context if available):").toList, []] ++
  (if data_text.isEmpty then [] else [("Customer context (Data Agent):").toList, data_text, []]) ++
  [("Support response:").toList, support_text, [], ("A2A log (short):").toList] ++ renderLog recs

/-- Scenario 2 of `handle_router` (cancel + billing). -/
def scenario2 (env : Env) (user_text : Str) (cid : Option Int) : Str × List CallRec :=
  let sres := call_agent env .supportAgent user_text
  let support_text := ((sres.1).2 : Str)
  match cid with
  | some n =>
      let dres := call_agent env .dataAgent (getProfileMsg n)
      let recs := [sres.2, dres.2]
      (joinNl (scenario2Lines ((dres.1).2) support_text recs), recs)
  | none =>
      let recs := [sres.2]
      (joinNl (scenario2Lines [] support_text recs), recs)

/-- Scenario 1 of `handle_router` (customer id + account help). -/
def scenario1 (env : Env) (user_text : Str) (cid : Option Int) : Str × List CallRec :=
  let dres := call_agent env .dataAgent (("Get customer information for ID ").toList ++ optIntStr cid)
  let data_text := ((dres.1).2 : Str)
  let smsg := ("User asked: ").toList ++ user_text ++ ("\n\nCustomer context:\n").toList ++
              data_text ++ ("\n\nPlease provide next steps.").toList
  let sres := call_agent env .supportAgent smsg
  let recs := [dres.2, sres.2]
  (joinNl
    ([("Coordinated answer (Router -> Data then Support):").toList, [],
      ("Customer context (Data Agent):").toList, data_text, [],
      ("Support response:").toList, ((sres.1).2 : Str), [],
      ("A2A log (short):").toList] ++ renderLog recs),
   recs)

/-- Default branch with a customer id: forward the raw text to the data agent. -/
def defaultDataBranch (env : Env) (user_text : Str) : Str × List CallRec :=
  let dres := call_agent env .dataAgent user_text
  (joinNl
    ([("Routed to Data Agent:").toList, [], ((dres.1).2 : Str), [],
      ("A2A log (short):").toList] ++ renderLog [dres.2]),
   [dres.2])

/-- Default branch without a customer id: forward the raw text to the support agent. -/
def defaultSupportBranch (env : Env) (user_text : Str) : Str × List CallRec :=
  let sres := call_agent env .supportAgent user_text
  (joinNl
    ([("Routed to Support Agent:").toList, [], ((sres.1).2 : Str), [],
      ("A2A log (short):").toList] ++ renderLog [sres.2]),
   [sres.2])

/-- `handle_router` from `router_agent_server.py` (reply text plus the
structured per-call audit entries). -/
def handle_router (env : Env) (user_text : Str) : Except PyErr (Str × List CallRec) :=
  let intent := detect_intent user_text
  let cid := extract_customer_id user_text
  if intent.list_active_open then scenario3 env
  else if intent.cancel && intent.billing then .ok (scenario2 env user_text cid)
  else if intent.has_customer_id && intent.account_help then .ok (scenario1 env user_text cid)
  else if intent.has_customer_id then .ok (defaultDataBranch env user_text)
  else .ok (defaultSupportBranch env user_text)

/-- The branch taken by `handle_router`, as a function of the intent vector. -/
inductive RouterBranch where
  | fanoutReport
  | cancelBilling
  | accountHelp
  | defaultData
  | defaultSupport
deriving DecidableEq

/-- The dispatch order of `handle_router` (the chain of `if`s, first match wins). -/
def routerBranch (i : IntentVector) : RouterBranch :=
  if i.list_active_open then .fanoutReport
  else if i.cancel && i.billing then .cancelBilling
  else if i.has_customer_id && i.account_help then .accountHelp
  else if i.has_customer_id then .defaultData
  else .defaultSupport

/-!
## Stdio tool bridge — response handling
(`mcp_client.MCPStdioClient.call_tool`, `executors._mcp_call`,
`data_agent_server.MCPClient.call_tool`)

All three bridge implementations handle the response line identically:
empty read raises, `json.loads(line)`, `if "error" in resp: raise`, and
otherwise `return resp.get("result", {})`. None of them ever reads the
response's `id` field: `req_id` is in scope but unused below exactly as in
the sources.
-/

/-- Response handling of the bridge `call_tool` after reading one line.
`req_id` is the correlation id the request was written with; the source never
consults it when accepting the response. -/
def call_tool_response (req_id : Str) (line : Str) : Except PyErr Json :=
  if line.isEmpty then .error (.runtimeError (("MCP server returned no output").toList))
  else
    match jsonParse line with
    | none => .error .jsonDecodeError
    | some resp => do
        let b ← pyIn (("error").toList) resp
        if b then do
          let ev ← pyIndex resp (("error").toList)
          Except.error (.runtimeError (("MCP error: ").toList ++ pyStr ev))
        else pyGetD resp (("result").toList) (Json.obj [])

/-!
## `mcp_server.py` — the stdin request loop

The tool implementations touch sqlite; they are abstracted by a `ToolDb`
oracle mapping (tool name, arguments) to a result or to the message of a
raised exception. Everything else of the loop body is embedded: note that
`req = json.loads(line)` and the `req.get(...)` extractions run OUTSIDE the
`try`, so their exceptions are modelled as `Except.error` (the loop dies);
the dispatch inside the `try` always produces a response line.
-/

/-- Oracle for the five sqlite-backed tool functions: result, or the text of
the exception the call raised. -/
abbrev ToolDb := Str → Json → Except Str Json

/-- The closed tool catalog (the keys of `TOOLS`). -/
def toolNames : List Str :=
  [("get_customer").toList, ("list_customers").toList, ("update_customer").toList,
   ("create_ticket").toList, ("get_customer_history").toList]

/-- A JSON-RPC success envelope. -/
def jsonRpcResult (reqId result : Json) : Json :=
  Json.obj [(("jsonrpc").toList, Json.str (("2.0").toList)), (("id").toList, reqId),
            (("result").toList, result)]

/-- A JSON-RPC error envelope (message only, as `mcp_server.py` sends). -/
def jsonRpcError (reqId : Json) (msg : Str) : Json :=
  Json.obj [(("jsonrpc").toList, Json.str (("2.0").toList)), (("id").toList, reqId),
            (("error").toList, Json.obj [(("message").toList, Json.str msg)])]

/-- `tools/list` result (the static catalog; its schema text is elided — no
claim concerns its content, only that a response is sent). -/
def toolsListResult : Json :=
  Json.obj [(("tools").toList, Json.arr (toolNames.map (fun n =>
    Json.obj [(("name").toList, Json.str n)])))]

/-- The `tools/call` body inside the `try`: unknown tools raise `ValueError`,
tool exceptions come from the oracle; both are caught by the handler. -/
def mcpToolsCall (db : ToolDb) (params : Json) : Except Str Json :=
  match pyGet params (("name").toList) with
  | .error _ => .error ("AttributeError").toList
  | .ok nameV =>
      match pyGet params (("arguments").toList) with
      | .error _ => .error ("AttributeError").toList
      | .ok args0 =>
          let args := if truthy args0 then args0 else Json.obj []
          match nameV with
          | Json.str name =>
              if toolNames.contains name then db name args
              else .error (("Unknown tool: ").toList ++ name)
          | _ => .error (("Unknown tool: ").toList ++ pyStr nameV)

/-- The `try` body of the loop: every exception becomes an error response. -/
def mcpDispatch (db : ToolDb) (reqId method params : Json) : Json :=
  if pyEqStr method (("tools/list").toList) then jsonRpcResult reqId toolsListResult
  else if pyEqStr method (("tools/call").toList) then
    match mcpToolsCall db params with
    | .ok result => jsonRpcResult reqId (Json.obj [(("content").toList, result)])
    | .error msg => jsonRpcError reqId msg
  else jsonRpcError reqId (("Unknown method: ").toList ++ pyStr method)

/-- One iteration of the `for line in sys.stdin` loop of `mcp_server.py`.
`.error` means an uncaught exception: the loop terminates without sending
a response. -/
def mcpStep (db : ToolDb) (line : Str) : Except PyErr Json := do
  let req ← match jsonParse line with
            | none => Except.error PyErr.jsonDecodeError
            | some v => Except.ok v
  let reqId ← pyGet req (("id").toList)
  let method ← pyGet req (("method").toList)
  let params0 ← pyGet req (("params").toList)
  let params := if truthy params0 then params0 else Json.obj []
  .ok (mcpDispatch db reqId method params)

/-- The whole request loop on a list of input lines: the responses written,
and whether the process crashed (terminating the loop early). -/
def mcpLoop (db : ToolDb) : List Str → List Json × Bool
  | [] => ([], false)
  | line :: rest =>
      match mcpStep db line with
      | .ok out =>
          let r := mcpLoop db rest
          (out :: r.1, r.2)
      | .error _ => ([], true)

/-!
## The agents' HTTP endpoint `rpc_root`
(identical shape in `router_agent_server.py` and `data_agent_server.py`;
embedded for the router, whose handler is `handle_router`)
-/

/-- The `-32700` parse-error envelope returned for malformed request bodies. -/
def parseErrorResponse : Json :=
  Json.obj [(("jsonrpc").toList, Json.str (("2.0").toList)), (("id").toList, Json.null),
            (("error").toList,
             Json.obj [(("code").toList, Json.num (-32700)),
                       (("message").toList, Json.str (("Parse error").toList))])]

/-- The `-32601` method-not-found envelope. -/
def methodNotFoundResponse (jsonrpc reqId : Json) : Json :=
  Json.obj [(("jsonrpc").toList, jsonrpc), (("id").toList, reqId),
            (("error").toList,
             Json.obj [(("code").toList, Json.num (-32601)),
                       (("message").toList, Json.str (("Method not found").toList))])]

/-- `user_text += p.get("text", "")` for one part (`+=` needs a string). -/
def partTextPiece (p : Json) : Except PyErr Str :=
  match p with
  | Json.obj kvs =>
      if pyEqStr ((objLookup kvs (("kind").toList)).getD Json.null) (("text").toList) then
        match (objLookup kvs (("text").toList)).getD (Json.str []) with
        | Json.str s => .ok s
        | _ => .error .typeError
      else
        match objLookup kvs (("text").toList) with
        | some (Json.str s) => .ok s
        | some _ => .error .typeError
        | none => .ok []
  | _ => .ok []

/-- The `user_text` accumulation over the parts list. -/
def concatParts : List Json → Except PyErr Str
  | [] => .ok []
  | p :: ps => do
      let a ← partTextPiece p
      let b ← concatParts ps
      .ok (a ++ b)

/-- `rpc_root` of the router agent: the message id of the reply is a fresh
uuid in the source, modelled by a fixed placeholder (no claim concerns it). -/
def rpc_root (env : Env) (body : Str) : Except PyErr Json :=
  match jsonParse body with
  | none => .ok parseErrorResponse
  | some req => do
      let jsonrpc ← pyGetD req (("jsonrpc").toList) (Json.str (("2.0").toList))
      let reqId ← pyGet req (("id").toList)
      let method ← pyGet req (("method").toList)
      let params0 ← pyGet req (("params").toList)
      let params := if truthy params0 then params0 else Json.obj []
      if !pyEqStr method (("message/send").toList) then
        .ok (methodNotFoundResponse jsonrpc reqId)
      else do
        let msg0 ← pyGet params (("message").toList)
        let msg := if truthy msg0 then msg0 else Json.obj []
        let parts0 ← pyGetD msg (("parts").toList) (Json.arr [])
        let parts := if truthy parts0 then parts0 else Json.arr []
        let items ← pyIter parts
        let user_text ← concatParts items
        let reply ← handle_router env user_text
        .ok (Json.obj
          [(("jsonrpc").toList, jsonrpc), (("id").toList, reqId),
           (("result").toList,
            Json.obj [(("kind").toList, Json.str (("message").toList)),
                      (("role").toList, Json.str (("agent").toList)),
                      (("messageId").toList, Json.str (("uuid-placeholder").toList)),
                      (("parts").toList,
                       Json.arr [Json.obj [(("kind").toList, Json.str (("text").toList)),
                                           (("text").toList, Json.str reply.1)]])])])

/-!
## The bridge channel as a transition system (concurrency of `call_tool`)

`_mcp_call` / `MCPStdioClient.call_tool` hold one exclusive lock for the full
write-then-read cycle. The model: each caller thread `t` owns one request
line `line t`; it acquires the lock, writes its line byte by byte (writes by
other threads are impossible without the lock), submits it (the subprocess
consumes the complete line and queues one response, tagged with the writer),
reads one response off the queue, and releases. `wire` is the append-only
history of bytes written to the subprocess stdin.
-/

/-- Where a caller thread is in its `call_tool` cycle. -/
inductive BPhase where
  | idle
  | writing (k : Nat)
  | reading
  | done
deriving DecidableEq

/-- State of the shared channel plus all caller threads. -/
structure BridgeSys where
  lock : Option Nat
  phase : Nat → BPhase
  wire : Str
  served : List Nat
  resps : List Nat
  reads : Nat → Option Nat

/-- Initial state: lock free, all threads idle, nothing written. -/
def initSys : BridgeSys :=
  { lock := none, phase := fun _ => BPhase.idle, wire := [], served := [], resps := [],
    reads := fun _ => none }

/-- One step of the bridge protocol: every wire access happens with the lock
held, and the lock is held from before the first written byte until after the
response is read (`with self._lock:` around write+flush+readline). -/
inductive BridgeStep (line : Nat → Str) : BridgeSys → BridgeSys → Prop where
  | acquire (s : BridgeSys) (t : Nat) (h1 : s.lock = none) (h2 : s.phase t = BPhase.idle) :
      BridgeStep line s
        { s with lock := some t, phase := Function.update s.phase t (BPhase.writing 0) }
  | write (s : BridgeSys) (t k : Nat) (h1 : s.lock = some t) (h2 : s.phase t = BPhase.writing k)
      (h3 : k < (line t).length) :
      BridgeStep line s
        { s with wire := s.wire ++ [(line t).get ⟨k, h3⟩],
                 phase := Function.update s.phase t (BPhase.writing (k + 1)) }
  | submit (s : BridgeSys) (t : Nat) (h1 : s.lock = some t)
      (h2 : s.phase t = BPhase.writing (line t).length) :
      BridgeStep line s
        { s with served := s.served ++ [t], resps := s.resps ++ [t],
                 phase := Function.update s.phase t BPhase.reading }
  | read (s : BridgeSys) (t r : Nat) (rest : List Nat) (h1 : s.lock = some t)
      (h2 : s.phase t = BPhase.reading) (h3 : s.resps = r :: rest) :
      BridgeStep line s
        { s with resps := rest, reads := Function.update s.reads t (some r),
                 phase := Function.update s.phase t BPhase.done }
  | release (s : BridgeSys) (t : Nat) (h1 : s.lock = some t) (h2 : s.phase t = BPhase.done) :
      BridgeStep line s { s with lock := none }

/-- Reachable states of the bridge protocol. -/
inductive BridgeReach (line : Nat → Str) : BridgeSys → Prop where
  | init : BridgeReach line initSys
  | step {s s' : BridgeSys} :
      BridgeReach line s → BridgeStep line s s' → BridgeReach line s'


/-- The partial line on the wire, as a function of lock and phases: the lock
holder's written prefix while it is mid-write, nothing otherwise. -/
def midSegLP (line : Nat → Str) (lock : Option Nat) (phase : Nat → BPhase) : Str :=
  match lock with
  | none => []
  | some t =>
      match phase t with
      | BPhase.writing k => (line t).take k
      | _ => []

/-- The partial line currently on the wire. -/
def midSeg (line : Nat → Str) (s : BridgeSys) : Str := midSegLP line s.lock s.phase

instance : IsTotal Row rowLe :=
  ⟨fun a b => by unfold rowLe; omega⟩

instance : IsTrans Row rowLe :=
  ⟨fun a b c h1 h2 => by unfold rowLe at h1 h2 ⊢; omega⟩

/-- A concrete environment for Scenario 3: the active-customer listing returns
two ids, the history call for customer 7 returns one open ticket, and every
other call (in particular the history call for customer 8) raises. -/
def c3Env : Env := fun _tag msg =>
  if msg = listActiveMsg then
    .ok ("\x7b\"customers\": [\x7b\"id\": 7, \"name\": \"Ann\"\x7d, \x7b\"id\": 8\x7d]\x7d").toList
  else if msg = histMsg 7 then
    .ok ("\x7b\"tickets\": [\x7b\"id\": 41, \"status\": \"open\", \"priority\": \"high\", \"issue\": \"vpn\"\x7d]\x7d").toList
  else .fail (("RuntimeError").toList) (("boom").toList)

/-- The report produced by `scenario3` on `c3Env`. -/
def c3Out : Str × List CallRec := ((scenario3 c3Env).toOption).getD ([], [])

/-- An environment whose data agent always raises. -/
def c3FailEnv : Env := fun _tag _msg => .fail (("RuntimeError").toList) (("boom").toList)

theorem midSeg_eq (line : Nat → Str) (s : BridgeSys) :
    midSeg line s = midSegLP line s.lock s.phase := rfl

/-- Concatenation of the complete lines submitted so far, in submission order. -/
def linesFlat (line : Nat → Str) (served : List Nat) : Str := (served.map line).flatten

/-- Inductive invariant of the bridge protocol. -/
def BridgeInv (line : Nat → Str) (s : BridgeSys) : Prop :=
  (∀ t k, s.phase t = BPhase.writing k → s.lock = some t ∧ k ≤ (line t).length) ∧
  (∀ t, s.phase t = BPhase.reading → s.lock = some t) ∧
  (s.resps = [] ∨ ∃ t, s.resps = [t] ∧ s.phase t = BPhase.reading) ∧
  (∀ t r, s.reads t = some r → r = t) ∧
  s.wire = linesFlat line s.served ++ midSeg line s

theorem bridgeInv_init (line : Nat → Str) : BridgeInv line initSys := by
  refine ⟨?_, ?_, ?_, ?_, ?_⟩ <;> simp [initSys, midSeg, midSegLP, linesFlat]

theorem bridgeInv_step {line : Nat → Str} {s s' : BridgeSys}
    (hinv : BridgeInv line s) (hst : BridgeStep line s s') : BridgeInv line s' := by
  obtain ⟨inv1, inv2, inv3, inv4, inv5⟩ := hinv
  cases hst with
  | acquire t h1 h2 =>
      refine ⟨?_, ?_, ?_, ?_, ?_⟩
      · intro u k hu
        dsimp only at hu ⊢
        by_cases hut : u = t
        · subst hut
          rw [Function.update_same] at hu
          injection hu with hk
          exact ⟨rfl, by omega⟩
        · rw [Function.update_noteq hut] at hu
          have := (inv1 u k hu).1
          rw [h1] at this
          exact absurd this (by simp)
      · intro u hu
        dsimp only at hu ⊢
        by_cases hut : u = t
        · subst hut; rfl
        · rw [Function.update_noteq hut] at hu
          have := inv2 u hu
          rw [h1] at this
          exact absurd this (by simp)
      · dsimp only
        rcases inv3 with h | ⟨u, hu, hpu⟩
        · exact Or.inl h
        · have := inv2 u hpu
          rw [h1] at this
          exact absurd this (by simp)
      · intro u r hu
        dsimp only at hu
        exact inv4 u r hu
      · simp only [midSeg_eq]
        rw [inv5, midSeg_eq, h1]
        have e1 : midSegLP line none s.phase = [] := by simp [midSegLP]
        have e2 : midSegLP line (some t) (Function.update s.phase t (BPhase.writing 0)) = [] := by
          simp [midSegLP, Function.update_same]
        rw [e1, e2]
  | write t k h1 h2 h3 =>
      refine ⟨?_, ?_, ?_, ?_, ?_⟩
      · intro u k' hu
        dsimp only at hu ⊢
        by_cases hut : u = t
        · subst hut
          rw [Function.update_same] at hu
          injection hu with hk
          exact ⟨h1, by omega⟩
        · rw [Function.update_noteq hut] at hu
          have := (inv1 u k' hu).1
          rw [h1] at this
          injection this with h'
          exact absurd h'.symm hut
      · intro u hu
        dsimp only at hu ⊢
        by_cases hut : u = t
        · subst hut; rw [Function.update_same] at hu; exact absurd hu (by simp)
        · rw [Function.update_noteq hut] at hu
          have := inv2 u hu
          rw [h1] at this
          injection this with h'
          exact absurd h'.symm hut
      · dsimp only
        rcases inv3 with h | ⟨u, hu, hpu⟩
        · exact Or.inl h
        · refine Or.inr ⟨u, hu, ?_⟩
          have hut : u ≠ t := by
            intro he; subst he; rw [h2] at hpu; exact absurd hpu (by simp)
          rw [Function.update_noteq hut]
          exact hpu
      · intro u r hu
        dsimp only at hu
        exact inv4 u r hu
      · simp only [midSeg_eq]
        rw [inv5, midSeg_eq, h1]
        have e1 : midSegLP line (some t) s.phase = (line t).take k := by
          simp [midSegLP, h2]
        have e2 : midSegLP line (some t) (Function.update s.phase t (BPhase.writing (k + 1))) =
            (line t).take (k + 1) := by
          simp [midSegLP, Function.update_same]
        rw [e1, e2, List.append_assoc]
        congr 1
        rw [List.take_succ, List.getElem?_eq_getElem h3]
        rfl
  | submit t h1 h2 =>
      refine ⟨?_, ?_, ?_, ?_, ?_⟩
      · intro u k' hu
        dsimp only at hu ⊢
        by_cases hut : u = t
        · subst hut; rw [Function.update_same] at hu; exact absurd hu (by simp)
        · rw [Function.update_noteq hut] at hu
          have := (inv1 u k' hu).1
          rw [h1] at this
          injection this with h'
          exact absurd h'.symm hut
      · intro u hu
        dsimp only at hu ⊢
        by_cases hut : u = t
        · subst hut; exact h1
        · rw [Function.update_noteq hut] at hu
          have := inv2 u hu
          rw [h1] at this
          injection this with h'
          exact absurd h'.symm hut
      · dsimp only
        have hre : s.resps = [] := by
          rcases inv3 with h | ⟨u, hu, hpu⟩
          · exact h
          · have := inv2 u hpu
            rw [h1] at this
            injection this with h'
            subst h'
            rw [h2] at hpu
            exact absurd hpu (by simp)
        refine Or.inr ⟨t, ?_, ?_⟩
        · rw [hre]; rfl
        · rw [Function.update_same]
      · intro u r hu
        dsimp only at hu
        exact inv4 u r hu
      · simp only [midSeg_eq]
        rw [inv5, midSeg_eq, h1]
        have e1 : midSegLP line (some t) s.phase = line t := by
          simp [midSegLP, h2]
        have e2 : midSegLP line (some t) (Function.update s.phase t BPhase.reading) = [] := by
          simp [midSegLP, Function.update_same]
        rw [e1, e2]
        simp [linesFlat]
  | read t r rest h1 h2 h3 =>
      refine ⟨?_, ?_, ?_, ?_, ?_⟩
      · intro u k' hu
        dsimp only at hu ⊢
        by_cases hut : u = t
        · subst hut; rw [Function.update_same] at hu; exact absurd hu (by simp)
        · rw [Function.update_noteq hut] at hu
          exact inv1 u k' hu
      · intro u hu
        dsimp only at hu ⊢
        by_cases hut : u = t
        · subst hut; rw [Function.update_same] at hu; exact absurd hu (by simp)
        · rw [Function.update_noteq hut] at hu
          exact inv2 u hu
      · dsimp only
        refine Or.inl ?_
        rcases inv3 with h | ⟨u, hu, hpu⟩
        · rw [h] at h3; exact absurd h3 (by simp)
        · rw [hu] at h3
          injection h3 with hr hrest
          exact hrest.symm
      · intro u r' hu
        dsimp only at hu
        by_cases hut : u = t
        · subst hut
          rw [Function.update_same] at hu
          injection hu with hr'
          subst hr'
          rcases inv3 with h | ⟨v, hv, hpv⟩
          · rw [h] at h3; exact absurd h3 (by simp)
          · rw [hv] at h3
            injection h3 with hr hrest
            subst hr
            have := inv2 v hpv
            rw [h1] at this
            injection this with h'
            exact h'.symm
        · rw [Function.update_noteq hut] at hu
          exact inv4 u r' hu
      · simp only [midSeg_eq]
        rw [inv5, midSeg_eq, h1]
        have e1 : midSegLP line (some t) s.phase = [] := by simp [midSegLP, h2]
        have e2 : midSegLP line (some t) (Function.update s.phase t BPhase.done) = [] := by
          simp [midSegLP, Function.update_same]
        rw [e1, e2]
  | release t h1 h2 =>
      refine ⟨?_, ?_, ?_, ?_, ?_⟩
      · intro u k' hu
        dsimp only at hu ⊢
        have := (inv1 u k' hu).1
        rw [h1] at this
        injection this with h'
        subst h'
        rw [h2] at hu
        exact absurd hu (by simp)
      · intro u hu
        dsimp only at hu ⊢
        have := inv2 u hu
        rw [h1] at this
        injection this with h'
        subst h'
        rw [h2] at hu
        exact absurd hu (by simp)
      · dsimp only
        rcases inv3 with h | ⟨u, hu, hpu⟩
        · exact Or.inl h
        · have := inv2 u hpu
          rw [h1] at this
          injection this with h'
          subst h'
          rw [h2] at hpu
          exact absurd hpu (by simp)
      · intro u r hu
        dsimp only at hu
        exact inv4 u r hu
      · simp only [midSeg_eq]
        rw [inv5, midSeg_eq, h1]
        have e1 : midSegLP line (some t) s.phase = [] := by simp [midSegLP, h2]
        have e2 : midSegLP line (none : Option Nat) s.phase = [] := by simp [midSegLP]
        rw [e1, e2]

theorem bridgeInv_reach {line : Nat → Str} {s : BridgeSys} (h : BridgeReach line s) :
    BridgeInv line s := by
  induction h with
  | init => exact bridgeInv_init line
  | step _ hst ih => exact bridgeInv_step ih hst

/-!
## Serialized requests are single lines

`json.dumps` escapes control characters, so a serialized request contains no
raw newline; `json.dumps(req) + "\n"` is therefore one complete line whose
only newline is the terminator.
-/

theorem digitChar_ne_nl (d : Nat) (h : d < 10) : digitChar d ≠ '\n' := by
  interval_cases d <;> decide

theorem natDigitsAux_no_nl (fuel : Nat) : ∀ n : Nat, '\n' ∉ natDigitsAux fuel n := by
  induction fuel with
  | zero => intro n; simp [natDigitsAux]
  | succ f ih =>
      intro n
      rw [natDigitsAux]
      split
      · next h =>
          intro hm
          rw [List.mem_singleton] at hm
          exact digitChar_ne_nl n h hm.symm
      · next h =>
          intro hm
          rcases List.mem_append.mp hm with hm | hm
          · exact ih (n / 10) hm
          · rw [List.mem_singleton] at hm
            exact digitChar_ne_nl (n % 10) (Nat.mod_lt n (by omega)) hm.symm

theorem intRepr_no_nl (n : Int) : '\n' ∉ intRepr n := by
  rw [intRepr]
  split
  · intro hm
    rcases List.mem_cons.mp hm with hm | hm
    · exact absurd hm (by decide)
    · exact natDigitsAux_no_nl _ _ hm
  · exact natDigitsAux_no_nl _ _

theorem escChar_no_nl (c : Char) : '\n' ∉ escChar c := by
  rw [escChar]
  split_ifs with h1 h2 h3 h4 h5
  · decide
  · decide
  · decide
  · decide
  · decide
  · intro hm
    rw [List.mem_singleton] at hm
    exact h3 hm.symm

theorem escStr_no_nl (s : Str) : '\n' ∉ escStr s := by
  induction s with
  | nil => simp [escStr]
  | cons c cs ih =>
      show '\n' ∉ escChar c ++ escStr cs
      intro hm
      rcases List.mem_append.mp hm with hm | hm
      · exact escChar_no_nl c hm
      · exact ih hm

theorem nl_notmem_append {l1 l2 : Str} (h1 : '\n' ∉ l1) (h2 : '\n' ∉ l2) :
    '\n' ∉ l1 ++ l2 := by
  intro hm
  rcases List.mem_append.mp hm with hm | hm
  · exact h1 hm
  · exact h2 hm

theorem nl_notmem_cons {c : Char} {l : Str} (h1 : '\n' ≠ c) (h2 : '\n' ∉ l) :
    '\n' ∉ c :: l := by
  intro hm
  rcases List.mem_cons.mp hm with hm | hm
  · exact h1 hm
  · exact h2 hm

mutual

theorem dumps_no_nl : ∀ v : Json, '\n' ∉ dumps v
  | Json.null => by decide
  | Json.bool true => by decide
  | Json.bool false => by decide
  | Json.num n => intRepr_no_nl n
  | Json.str s =>
      nl_notmem_append (nl_notmem_cons (by decide) (escStr_no_nl s)) (by decide)
  | Json.arr l =>
      nl_notmem_append (nl_notmem_cons (by decide) (dumpsArr_no_nl l)) (by decide)
  | Json.obj kvs =>
      nl_notmem_append (nl_notmem_cons (by decide) (dumpsObj_no_nl kvs)) (by decide)

theorem dumpsArr_no_nl : ∀ l : List Json, '\n' ∉ dumpsArr l
  | [] => by simp [dumpsArr]
  | [x] => dumps_no_nl x
  | x :: y :: xs =>
      nl_notmem_append (dumps_no_nl x)
        (nl_notmem_cons (by decide) (dumpsArr_no_nl (y :: xs)))

theorem dumpsObj_no_nl : ∀ kvs : List (Str × Json), '\n' ∉ dumpsObj kvs
  | [] => by simp [dumpsObj]
  | [(k, v)] => by
      show '\n' ∉ Char.ofNat 34 :: (escStr k ++ (Char.ofNat 34 :: ':' :: dumps v))
      exact nl_notmem_cons (by decide)
        (nl_notmem_append (escStr_no_nl k)
          (nl_notmem_cons (by decide) (nl_notmem_cons (by decide) (dumps_no_nl v))))
  | (k, v) :: m :: kvs => by
      show '\n' ∉ Char.ofNat 34 ::
        ((escStr k ++ (Char.ofNat 34 :: ':' :: dumps v)) ++ (',' :: dumpsObj (m :: kvs)))
      exact nl_notmem_cons (by decide)
        (nl_notmem_append
          (nl_notmem_append (escStr_no_nl k)
            (nl_notmem_cons (by decide) (nl_notmem_cons (by decide) (dumps_no_nl v))))
          (nl_notmem_cons (by decide) (dumpsObj_no_nl (m :: kvs))))

end

/-- `natDigits` never produces the empty string. -/
theorem natDigits_ne_nil (n : Nat) : natDigits n ≠ [] := by
  rw [natDigits, natDigitsAux]
  split
  · simp
  · simp

/-- `dumps` never produces the empty string. -/
theorem dumps_ne_nil (v : Json) : dumps v ≠ [] := by
  cases v with
  | null => decide
  | bool b => cases b <;> decide
  | num n =>
      show intRepr n ≠ []
      rw [intRepr]
      split
      · simp
      · exact natDigits_ne_nil _
  | str s => simp [dumps]
  | arr l => simp [dumps]
  | obj kvs => simp [dumps]

/-!
## The serialized bridge request (`MCPStdioClient.call_tool` request shape)
-/

/-- The request dict written by the bridge for one call. -/
def bridgeReq (tok name : Str) (args : Json) : Json :=
  Json.obj [(("jsonrpc").toList, Json.str (("2.0").toList)),
            (("id").toList, Json.str tok),
            (("method").toList, Json.str (("tools/call").toList)),
            (("params").toList,
             Json.obj [(("name").toList, Json.str name),
                       (("arguments").toList, args)])]

/-- The line thread `t` writes: `json.dumps(req) + "\n"`. -/
def bridgeLine (tok name : Nat → Str) (args : Nat → Json) (t : Nat) : Str :=
  dumps (bridgeReq (tok t) (name t) (args t)) ++ ['\n']

/-- Concrete request parameters for a two-step bridge run. -/
def c9Tok : Nat → Str := fun _ => ("tok-1").toList

def c9Name : Nat → Str := fun _ => ("get_customer").toList

def c9Args : Nat → Json := fun _ => Json.obj [(("customer_id").toList, Json.num 7)]

/-- State after thread 0 acquires the channel lock. -/
def c9S1 : BridgeSys :=
  { initSys with lock := some 0, phase := Function.update initSys.phase 0 (BPhase.writing 0) }

/-- State after thread 0 writes the first byte of its request line. -/
def c9S2 : BridgeSys :=
  { c9S1 with
      wire := c9S1.wire ++ [(bridgeLine c9Tok c9Name c9Args 0).get ⟨0, by decide⟩],
      phase := Function.update c9S1.phase 0 (BPhase.writing 1) }

/-!
## Character-class facts used to evaluate the customer-id scan symbolically
-/

theorem digit_toNat_le {d : Char} (h : d.isDigit = true) : d.toNat ≤ 57 := by
  rw [Char.isDigit] at h
  rcases Bool.and_eq_true_iff.mp h with ⟨_, h2⟩
  have : d.val ≤ 57 := of_decide_eq_true h2
  exact this

theorem digit_toNat_ge {d : Char} (h : d.isDigit = true) : 48 ≤ d.toNat := by
  rw [Char.isDigit] at h
  rcases Bool.and_eq_true_iff.mp h with ⟨h1, _⟩
  have : (48 : UInt32) ≤ d.val := of_decide_eq_true h1
  exact this

theorem digit_toLower {d : Char} (h : d.isDigit = true) : d.toLower = d := by
  have h2 := digit_toNat_le h
  rw [Char.toLower]
  exact if_neg (by omega)

theorem digit_ne {d : Char} (c : Char) (h : d.isDigit = true) (hc : c.isDigit = false) :
    d ≠ c := by
  intro he
  subst he
  rw [h] at hc
  exact absurd hc (by simp)

theorem digit_not_space {d : Char} (h : d.isDigit = true) : isSpaceChar d = false := by
  rw [isSpaceChar]
  simp only [decide_eq_false (digit_ne ' ' h (by decide)),
    decide_eq_false (digit_ne '\t' h (by decide)),
    decide_eq_false (digit_ne '\n' h (by decide)),
    decide_eq_false (digit_ne '\r' h (by decide)),
    decide_eq_false (digit_ne (Char.ofNat 11) h (by decide)),
    decide_eq_false (digit_ne (Char.ofNat 12) h (by decide)), Bool.or_false]

theorem dropSpaces_digits {ds : Str} (h : ∀ c ∈ ds, c.isDigit = true) :
    dropSpaces ds = ds := by
  cases ds with
  | nil => rfl
  | cons d rest =>
      show List.dropWhile isSpaceChar (d :: rest) = d :: rest
      rw [List.dropWhile_cons]
      rw [digit_not_space (h d (List.mem_cons_self d rest))]
      simp

theorem tryDigits_digits {ds : Str} (h1 : ds ≠ []) (h2 : ∀ c ∈ ds, c.isDigit = true) :
    tryDigits ds = some (digitsToNat ds) := by
  obtain ⟨d, rest, rfl⟩ : ∃ d rest, ds = d :: rest := by
    cases ds with
    | nil => exact absurd rfl h1
    | cons d rest => exact ⟨d, rest, rfl⟩
  have ht : (d :: rest).takeWhile Char.isDigit = d :: rest :=
    List.takeWhile_eq_self_iff.mpr h2
  have hd : (d :: rest).dropWhile Char.isDigit = [] :=
    List.dropWhile_eq_nil_iff.mpr h2
  rw [tryDigits]
  rw [ht, hd]

theorem afterIdPartAt_digits {ds : Str} (h1 : ds ≠ []) (h2 : ∀ c ∈ ds, c.isDigit = true) :
    afterIdPartAt ds = some (digitsToNat ds) := by
  obtain ⟨d, rest, rfl⟩ : ∃ d rest, ds = d :: rest := by
    cases ds with
    | nil => exact absurd rfl h1
    | cons d rest => exact ⟨d, rest, rfl⟩
  have hdig : d.isDigit = true := h2 d (List.mem_cons_self d rest)
  simp only [afterIdPartAt]
  rw [decide_eq_false (digit_ne ':' hdig (by decide)),
      decide_eq_false (digit_ne '#' hdig (by decide))]
  simp only [Bool.or_false, Bool.false_eq_true, if_false]
  exact tryDigits_digits h1 h2

theorem afterIdPartAt_colon_space {ds : Str} (h1 : ds ≠ []) (h2 : ∀ c ∈ ds, c.isDigit = true) :
    afterIdPartAt (':' :: ' ' :: ds) = some (digitsToNat ds) := by
  simp only [afterIdPartAt]
  rw [show dropSpaces (' ' :: ds) = dropSpaces ds from rfl]
  rw [dropSpaces_digits h2, tryDigits_digits h1 h2]
  simp [optOr]

theorem afterIdPartAt_hash {ds : Str} (h1 : ds ≠ []) (h2 : ∀ c ∈ ds, c.isDigit = true) :
    afterIdPartAt ('#' :: ds) = some (digitsToNat ds) := by
  simp only [afterIdPartAt]
  rw [dropSpaces_digits h2, tryDigits_digits h1 h2]
  simp [optOr]

theorem afterCustomer_id_colon {ds : Str} (h1 : ds ≠ []) (h2 : ∀ c ∈ ds, c.isDigit = true) :
    afterCustomer (' ' :: 'i' :: 'd' :: ':' :: ' ' :: ds) = some (digitsToNat ds) := by
  simp only [afterCustomer]
  rw [show dropSpaces (' ' :: 'i' :: 'd' :: ':' :: ' ' :: ds) = 'i' :: 'd' :: ':' :: ' ' :: ds
      from rfl]
  rw [show startsWithCI (("id").toList) ('i' :: 'd' :: ':' :: ' ' :: ds) = true from rfl]
  rw [show ('i' :: 'd' :: ':' :: ' ' :: ds).drop 2 = ':' :: ' ' :: ds from rfl]
  rw [show afterIdPart (':' :: ' ' :: ds) = afterIdPartAt (':' :: ' ' :: ds) from rfl]
  rw [afterIdPartAt_colon_space h1 h2]
  simp [optOr]

theorem afterCustomer_hash {ds : Str} (h1 : ds ≠ []) (h2 : ∀ c ∈ ds, c.isDigit = true) :
    afterCustomer (' ' :: '#' :: ds) = some (digitsToNat ds) := by
  simp only [afterCustomer]
  rw [show dropSpaces (' ' :: '#' :: ds) = '#' :: ds from rfl]
  rw [show startsWithCI (("id").toList) ('#' :: ds) = false from rfl]
  rw [show afterIdPart ('#' :: ds) = afterIdPartAt ('#' :: ds) from rfl]
  simp only [Bool.false_eq_true, if_false]
  exact afterIdPartAt_hash h1 h2

theorem startsWithCI_customer_digit {d : Char} (hd : d.isDigit = true) (rest : Str) :
    startsWithCI (("customer").toList) (d :: rest) = false := by
  rw [show ("customer").toList = 'c' :: ('u' :: 's' :: 't' :: 'o' :: 'm' :: 'e' :: 'r' :: [])
      from rfl]
  rw [startsWithCI]
  rw [digit_toLower hd, show 'c'.toLower = 'c' from by decide]
  rw [beq_eq_false_iff_ne.mpr (Ne.symm (digit_ne 'c' hd (by decide)))]
  simp

theorem startsWithCI_id_digit {d : Char} (hd : d.isDigit = true) (rest : Str) :
    startsWithCI (("id").toList) (d :: rest) = false := by
  rw [show ("id").toList = 'i' :: ('d' :: []) from rfl]
  rw [startsWithCI]
  rw [digit_toLower hd, show 'i'.toLower = 'i' from by decide]
  rw [beq_eq_false_iff_ne.mpr (Ne.symm (digit_ne 'i' hd (by decide)))]
  simp

theorem searchPat1_digits {ds : Str} (h : ∀ c ∈ ds, c.isDigit = true) :
    ∀ prev : Bool, searchPat1 prev ds = none := by
  induction ds with
  | nil => intro prev; rfl
  | cons d rest ih =>
      intro prev
      have hd : d.isDigit = true := h d (List.mem_cons_self d rest)
      rw [searchPat1]
      rw [startsWithCI_customer_digit hd rest]
      simp only [Bool.and_false, Bool.false_eq_true, if_false, optOr]
      exact ih (fun c hc => h c (List.mem_cons_of_mem d hc)) (isWordChar d)

theorem extract_customer_id_colon {ds : Str} (h1 : ds ≠ [])
    (h2 : ∀ c ∈ ds, c.isDigit = true) :
    extract_customer_id (("customer id: ").toList ++ ds) =
      some ((digitsToNat ds : Int)) := by
  have hform : ("customer id: ").toList ++ ds =
      'c' :: 'u' :: 's' :: 't' :: 'o' :: 'm' :: 'e' :: 'r' :: ' ' :: 'i' :: 'd' :: ':' :: ' ' :: ds :=
    rfl
  have hp1 : searchPat1 false
      ('c' :: 'u' :: 's' :: 't' :: 'o' :: 'm' :: 'e' :: 'r' :: ' ' :: 'i' :: 'd' :: ':' :: ' ' :: ds) =
      some (digitsToNat ds) := by
    rw [searchPat1]
    rw [show startsWithCI (("customer").toList)
        ('c' :: 'u' :: 's' :: 't' :: 'o' :: 'm' :: 'e' :: 'r' :: ' ' :: 'i' :: 'd' :: ':' :: ' ' :: ds) =
        true from rfl]
    simp only [Bool.not_false, Bool.true_and, if_true]
    rw [show ('c' :: 'u' :: 's' :: 't' :: 'o' :: 'm' :: 'e' :: 'r' :: ' ' :: 'i' :: 'd' :: ':' :: ' ' :: ds).drop 8 =
        ' ' :: 'i' :: 'd' :: ':' :: ' ' :: ds from rfl]
    rw [afterCustomer_id_colon h1 h2]
    rfl
  rw [extract_customer_id, hform, hp1]
  rfl

theorem extract_customer_id_hash {ds : Str} (h1 : ds ≠ [])
    (h2 : ∀ c ∈ ds, c.isDigit = true) :
    extract_customer_id (("customer #").toList ++ ds) = some ((digitsToNat ds : Int)) := by
  have hform : ("customer #").toList ++ ds =
      'c' :: 'u' :: 's' :: 't' :: 'o' :: 'm' :: 'e' :: 'r' :: ' ' :: '#' :: ds := rfl
  have hp1 : searchPat1 false
      ('c' :: 'u' :: 's' :: 't' :: 'o' :: 'm' :: 'e' :: 'r' :: ' ' :: '#' :: ds) =
      some (digitsToNat ds) := by
    rw [searchPat1]
    rw [show startsWithCI (("customer").toList)
        ('c' :: 'u' :: 's' :: 't' :: 'o' :: 'm' :: 'e' :: 'r' :: ' ' :: '#' :: ds) = true from rfl]
    simp only [Bool.not_false, Bool.true_and, if_true]
    rw [show ('c' :: 'u' :: 's' :: 't' :: 'o' :: 'm' :: 'e' :: 'r' :: ' ' :: '#' :: ds).drop 8 =
        ' ' :: '#' :: ds from rfl]
    rw [afterCustomer_hash h1 h2]
    rfl
  rw [extract_customer_id, hform, hp1]
  rfl

theorem extract_customer_id_idspace {ds : Str} (h1 : ds ≠ [])
    (h2 : ∀ c ∈ ds, c.isDigit = true) :
    extract_customer_id (("ID ").toList ++ ds) = some ((digitsToNat ds : Int)) := by
  have hform : ("ID ").toList ++ ds = 'I' :: 'D' :: ' ' :: ds := rfl
  have hp1 : searchPat1 false ('I' :: 'D' :: ' ' :: ds) = none := by
    rw [searchPat1]
    rw [show startsWithCI (("customer").toList) ('I' :: 'D' :: ' ' :: ds) = false from rfl]
    simp only [Bool.and_false, Bool.false_eq_true, if_false, optOr]
    rw [show isWordChar 'I' = true from by decide]
    rw [searchPat1]
    simp only [Bool.not_true, Bool.false_and, Bool.false_eq_true, if_false, optOr]
    rw [show isWordChar 'D' = true from by decide]
    rw [searchPat1]
    simp only [Bool.not_true, Bool.false_and, Bool.false_eq_true, if_false, optOr]
    rw [show isWordChar ' ' = false from by decide]
    exact searchPat1_digits h2 false
  have hp2 : searchPat2 false ('I' :: 'D' :: ' ' :: ds) = some (digitsToNat ds) := by
    rw [searchPat2]
    rw [show startsWithCI (("id").toList) ('I' :: 'D' :: ' ' :: ds) = true from rfl]
    simp only [Bool.not_false, Bool.true_and, if_true]
    rw [show ('I' :: 'D' :: ' ' :: ds).drop 2 = ' ' :: ds from rfl]
    rw [show dropSpaces (' ' :: ds) = dropSpaces ds from rfl]
    rw [dropSpaces_digits h2, tryDigits_digits h1 h2]
    rfl
  rw [extract_customer_id, hform, hp1, hp2]
  rfl

/-- `handle_router` dispatches along `routerBranch` of the detected intent. -/
theorem handle_router_dispatch (env : Env) (text : Str) :
    handle_router env text =
      match routerBranch (detect_intent text) with
      | RouterBranch.fanoutReport => scenario3 env
      | RouterBranch.cancelBilling => .ok (scenario2 env text (extract_customer_id text))
      | RouterBranch.accountHelp => .ok (scenario1 env text (extract_customer_id text))
      | RouterBranch.defaultData => .ok (defaultDataBranch env text)
      | RouterBranch.defaultSupport => .ok (defaultSupportBranch env text) := by
  cases h5 : (detect_intent text).list_active_open <;>
    cases h3 : (detect_intent text).cancel <;>
      cases h4 : (detect_intent text).billing <;>
        cases h1 : (detect_intent text).has_customer_id <;>
          cases h2 : (detect_intent text).account_help <;>
            simp [handle_router, routerBranch, h1, h2, h3, h4, h5]

/-!
## Claim theorems
-/

/-- C2: for every input text the orchestrator selects its branch by the fixed
priority order of `handle_router`, first match winning: `list_active_open`
forces the fan-out-report branch regardless of the other flags; otherwise
`cancel ∧ billing` takes the cancel+billing branch; otherwise
`has_customer_id ∧ account_help` takes the account-help branch; otherwise a
default branch is taken. `handle_router` dispatches exactly along this
branch function. -/
theorem c2_branch_priority_first_match_wins :
    (∀ i : IntentVector, i.list_active_open = true →
        routerBranch i = RouterBranch.fanoutReport) ∧
    (∀ i : IntentVector, i.list_active_open = false → i.cancel = true → i.billing = true →
        routerBranch i = RouterBranch.cancelBilling) ∧
    (∀ i : IntentVector, i.list_active_open = false → (i.cancel && i.billing) = false →
        i.has_customer_id = true → i.account_help = true →
        routerBranch i = RouterBranch.accountHelp) ∧
    (∀ i : IntentVector, i.list_active_open = false → (i.cancel && i.billing) = false →
        (i.has_customer_id && i.account_help) = false →
        (routerBranch i = RouterBranch.defaultData ∨
         routerBranch i = RouterBranch.defaultSupport)) ∧
    (∀ (env : Env) (text : Str), handle_router env text =
        match routerBranch (detect_intent text) with
        | RouterBranch.fanoutReport => scenario3 env
        | RouterBranch.cancelBilling =>
            .ok (scenario2 env text (extract_customer_id text))
        | RouterBranch.accountHelp =>
            .ok (scenario1 env text (extract_customer_id text))
        | RouterBranch.defaultData => .ok (defaultDataBranch env text)
        | RouterBranch.defaultSupport => .ok (defaultSupportBranch env text)) := by
  refine ⟨?_, ?_, ?_, ?_, ?_⟩
  · intro i
    obtain ⟨b1, b2, b3, b4, b5⟩ := i
    revert b1 b2 b3 b4 b5
    decide
  · intro i
    obtain ⟨b1, b2, b3, b4, b5⟩ := i
    revert b1 b2 b3 b4 b5
    decide
  · intro i
    obtain ⟨b1, b2, b3, b4, b5⟩ := i
    revert b1 b2 b3 b4 b5
    decide
  · intro i
    obtain ⟨b1, b2, b3, b4, b5⟩ := i
    revert b1 b2 b3 b4 b5
    decide
  · exact handle_router_dispatch

/-- C2 witness: a fully-set intent vector is routed to the fan-out-report
branch. -/
theorem c2_branch_priority_witness :
    routerBranch ⟨true, true, true, true, true⟩ = RouterBranch.fanoutReport :=
  c2_branch_priority_first_match_wins.1 ⟨true, true, true, true, true⟩ rfl

/-- C8: `classify` is a pure function of the literal text: each keyword flag
is set from the lowercased text independently of the others (so text hitting
several keyword groups sets all the corresponding flags, and flags agree on
any two texts with the same lowercasing); `has_customer_id` is set exactly
when the id regexes match; and for each of the three spec patterns
(`customer id: N`, `customer #N`, `ID N`) the matched integer is extracted
exactly. -/
theorem c8_classify_flags_and_exact_extraction :
    (∀ (t kw : Str), kw ∈ accountKeywords → containsSub kw (lowerL t) = true →
        (detect_intent t).account_help = true) ∧
    (∀ (t kw : Str), kw ∈ cancelKeywords → containsSub kw (lowerL t) = true →
        (detect_intent t).cancel = true) ∧
    (∀ (t kw : Str), kw ∈ billingKeywords → containsSub kw (lowerL t) = true →
        (detect_intent t).billing = true) ∧
    (∀ t : Str, containsSub (("active customers").toList) (lowerL t) = true →
        containsSub (("open ticket").toList) (lowerL t) = true →
        (detect_intent t).list_active_open = true) ∧
    (∀ t1 t2 : Str, lowerL t1 = lowerL t2 →
        (detect_intent t1).account_help = (detect_intent t2).account_help ∧
        (detect_intent t1).cancel = (detect_intent t2).cancel ∧
        (detect_intent t1).billing = (detect_intent t2).billing ∧
        (detect_intent t1).list_active_open = (detect_intent t2).list_active_open) ∧
    (∀ (t : Str) (n : Int), extract_customer_id t = some n →
        (detect_intent t).has_customer_id = true) ∧
    (∀ ds : Str, ds ≠ [] → (∀ c ∈ ds, c.isDigit = true) →
        extract_customer_id (("customer id: ").toList ++ ds) =
            some ((digitsToNat ds : Int)) ∧
        extract_customer_id (("customer #").toList ++ ds) =
            some ((digitsToNat ds : Int)) ∧
        extract_customer_id (("ID ").toList ++ ds) = some ((digitsToNat ds : Int))) := by
  refine ⟨?_, ?_, ?_, ?_, ?_, ?_, ?_⟩
  · intro t kw hkw h
    show accountKeywords.any (fun k => containsSub k (lowerL t)) = true
    exact List.any_eq_true.mpr ⟨kw, hkw, h⟩
  · intro t kw hkw h
    show cancelKeywords.any (fun k => containsSub k (lowerL t)) = true
    exact List.any_eq_true.mpr ⟨kw, hkw, h⟩
  · intro t kw hkw h
    show billingKeywords.any (fun k => containsSub k (lowerL t)) = true
    exact List.any_eq_true.mpr ⟨kw, hkw, h⟩
  · intro t ha hb
    show (containsSub (("active customers").toList) (lowerL t) &&
      (containsSub (("open ticket").toList) (lowerL t) ||
       containsSub (("open tickets").toList) (lowerL t))) = true
    rw [ha, hb]
    rfl
  · intro t1 t2 h
    refine ⟨?_, ?_, ?_, ?_⟩
    · show accountKeywords.any (fun k => containsSub k (lowerL t1)) =
        accountKeywords.any (fun k => containsSub k (lowerL t2))
      rw [h]
    · show cancelKeywords.any (fun k => containsSub k (lowerL t1)) =
        cancelKeywords.any (fun k => containsSub k (lowerL t2))
      rw [h]
    · show billingKeywords.any (fun k => containsSub k (lowerL t1)) =
        billingKeywords.any (fun k => containsSub k (lowerL t2))
      rw [h]
    · show (containsSub (("active customers").toList) (lowerL t1) &&
        (containsSub (("open ticket").toList) (lowerL t1) ||
         containsSub (("open tickets").toList) (lowerL t1))) =
        (containsSub (("active customers").toList) (lowerL t2) &&
        (containsSub (("open ticket").toList) (lowerL t2) ||
         containsSub (("open tickets").toList) (lowerL t2)))
      rw [h]
  · intro t n h
    show (extract_customer_id t).isSome = true
    rw [h]
    rfl
  · intro ds h1 h2
    exact ⟨extract_customer_id_colon h1 h2, extract_customer_id_hash h1 h2,
           extract_customer_id_idspace h1 h2⟩

/-- C8 witness: concrete multi-group text sets both flags, and a concrete id
pattern extracts its integer exactly. -/
theorem c8_classify_witness :
    (detect_intent (("please CANCEL my BILLING").toList)).cancel = true ∧
    (detect_intent (("please CANCEL my BILLING").toList)).billing = true ∧
    extract_customer_id (("customer id: ").toList ++ ('4' :: '2' :: [])) =
      some ((digitsToNat ('4' :: '2' :: []) : Int)) :=
  ⟨c8_classify_flags_and_exact_extraction.2.1 (("please CANCEL my BILLING").toList)
      (("cancel").toList) (by decide) (by decide),
   c8_classify_flags_and_exact_extraction.2.2.1 (("please CANCEL my BILLING").toList)
      (("billing").toList) (by decide) (by decide),
   (c8_classify_flags_and_exact_extraction.2.2.2.2.2.2 ('4' :: '2' :: [])
      (by decide) (by decide)).1⟩

/-- C1 counterexample: the bridge accepts a decoded response whose `id`
differs from the request's correlation id and returns its result instead of
raising — no bridge implementation compares the two ids. -/
theorem c1_mismatched_id_accepted_counterexample :
    (("req-2").toList ≠ ("req-1").toList) ∧
    call_tool_response (("req-1").toList)
      (("\x7b\"jsonrpc\": \"2.0\", \"id\": \"req-2\", \"result\": \x7b\"content\": 7\x7d\x7d").toList) =
      .ok (Json.obj [((("content").toList), Json.num 7)]) :=
  ⟨by decide, by rfl⟩

/-- C1 (amended): the bridge's response handling never consults the request's
correlation id — its result is independent of the id the request was written
with, and any well-formed object response line without an `error` key is
accepted, its `result` payload returned. -/
theorem c1_bridge_ignores_correlation_id :
    (∀ rid1 rid2 line : Str, call_tool_response rid1 line = call_tool_response rid2 line) ∧
    (∀ (rid line : Str) (kvs : List (Str × Json)),
        jsonParse line = some (Json.obj kvs) →
        (objLookup kvs (("error").toList)).isSome = false →
        call_tool_response rid line =
          .ok ((objLookup kvs (("result").toList)).getD (Json.obj []))) := by
  constructor
  · intro rid1 rid2 line
    rfl
  · intro rid line kvs hp he
    have hne : line.isEmpty = false := by
      cases line with
      | nil => rw [show jsonParse ([] : Str) = none from rfl] at hp; cases hp
      | cons c r => rfl
    rw [call_tool_response, hne]
    simp only [Bool.false_eq_true, if_false]
    rw [hp]
    simp only [pyIn, he, pyGetD]
    rfl

/-- C1 witness: a concrete well-formed result line is accepted regardless of
the request id. -/
theorem c1_bridge_ignores_correlation_id_witness :
    call_tool_response (("a").toList) (("\x7b\"id\": \"x\", \"result\": 5\x7d").toList) =
      .ok ((objLookup [((("id").toList), Json.str (("x").toList)),
                       ((("result").toList), Json.num 5)] (("result").toList)).getD
           (Json.obj [])) :=
  c1_bridge_ignores_correlation_id.2 (("a").toList)
    (("\x7b\"id\": \"x\", \"result\": 5\x7d").toList)
    [((("id").toList), Json.str (("x").toList)), ((("result").toList), Json.num 5)]
    (by rfl) (by rfl)

/-- C7 counterexample: a malformed JSON line on the stdio tool server's stdin
is parsed outside the `try` block — no JSON-RPC error response is produced,
the exception is uncaught, and the request loop terminates without
processing the remaining (well-formed) input line. -/
theorem c7_stdio_malformed_json_crashes_counterexample :
    mcpStep (fun _ _ => Except.error []) (("not json").toList) =
      .error PyErr.jsonDecodeError ∧
    mcpLoop (fun _ _ => Except.error [])
      [(("not json").toList),
       (("\x7b\"jsonrpc\": \"2.0\", \"id\": 1, \"method\": \"tools/list\"\x7d").toList)] =
      ([], true) :=
  ⟨rfl, rfl⟩

/-- C7 (amended): the agents' HTTP endpoints answer malformed JSON with the
`-32700` JSON-RPC error envelope and never crash; the stdio tool server's
loop answers every well-formed object request with a response, but a
malformed JSON line raises an uncaught exception that terminates the loop. -/
theorem c7_parse_error_surfacing :
    (∀ (env : Env) (body : Str), jsonParse body = none →
        rpc_root env body = .ok parseErrorResponse) ∧
    (∀ (db : ToolDb) (line : Str) (kvs : List (Str × Json)),
        jsonParse line = some (Json.obj kvs) →
        ∃ out : Json, mcpStep db line = .ok out) ∧
    (∀ (db : ToolDb) (line : Str), jsonParse line = none →
        mcpStep db line = .error PyErr.jsonDecodeError) := by
  refine ⟨?_, ?_, ?_⟩
  · intro env body h
    rw [rpc_root, h]
  · intro db line kvs h
    have hstep : mcpStep db line = .ok (mcpDispatch db
        ((objLookup kvs (("id").toList)).getD Json.null)
        ((objLookup kvs (("method").toList)).getD Json.null)
        (if truthy ((objLookup kvs (("params").toList)).getD Json.null)
         then (objLookup kvs (("params").toList)).getD Json.null else Json.obj [])) := by
      rw [mcpStep, h]
      rfl
    exact ⟨_, hstep⟩
  · intro db line h
    rw [mcpStep, h]
    rfl

/-- C7 witness: concrete instances of both halves. -/
theorem c7_parse_error_surfacing_witness :
    rpc_root (fun _ _ => CallOutcome.ok []) (("oops").toList) = .ok parseErrorResponse ∧
    (∃ out : Json, mcpStep (fun _ _ => Except.error [])
        (("\x7b\"jsonrpc\": \"2.0\", \"id\": 1, \"method\": \"tools/list\"\x7d").toList) =
        .ok out) :=
  ⟨c7_parse_error_surfacing.1 (fun _ _ => CallOutcome.ok []) (("oops").toList) (by rfl),
   c7_parse_error_surfacing.2.1 (fun _ _ => Except.error [])
     (("\x7b\"jsonrpc\": \"2.0\", \"id\": 1, \"method\": \"tools/list\"\x7d").toList)
     [((("jsonrpc").toList), Json.str (("2.0").toList)), ((("id").toList), Json.num 1),
      ((("method").toList), Json.str (("tools/list").toList))]
     (by rfl)⟩

/-- Bind of a successful `Except` computation, for stepwise reduction. -/
theorem pyBind_ok {α β : Type} (a : α) (f : α → Except PyErr β) :
    (Except.ok a >>= f : Except PyErr β) = f a := rfl

/-- A failed downstream call leaves a failure text that never parses as JSON
(it starts with the label, not a JSON token). -/
theorem activeText_of_fail (env : Env) (en em : Str)
    (h : env .dataAgent listActiveMsg = .fail en em) :
    safe_json_loads (activeText env) = none := by
  simp only [activeText, call_agent, h]
  rfl

/-- The report assembled when no active-customer ids were obtained: the
placeholder table and the single initial call in the log. -/
def emptyReport (env : Env) : Str :=
  joinNl
    ([("Active customers with open tickets (coordinated via Router -> Data, multi-step):").toList,
      [], tableHeader ++ placeholderTail, [], ("A2A log (short):").toList] ++
     renderLog [activeRec env])

/-- When id extraction yields nothing, Scenario 3 issues no history calls and
renders the placeholder table. -/
theorem scenario3_of_no_ids (env : Env) (h : activeOf env = .ok ([], [])) :
    scenario3 env = .ok (emptyReport env, [activeRec env]) := by
  rw [scenario3, h]
  rfl

/-- C10 counterexample: a reply parsing to a truthy non-object JSON value
(here the array `[1]`) does not yield a placeholder report — `.get` on the
parsed value raises AttributeError and the whole request aborts. -/
theorem c10_truthy_nonobject_reply_crashes_counterexample :
    scenario3 (fun _ _ => CallOutcome.ok (("[1]").toList)) = .error PyErr.attrError := by
  rfl

/-- C10 (amended): if the initial call fails, or its reply does not parse as
JSON, or parses to a falsy value, or parses to an object whose `customers`
and `content` entries are both falsy, then no ticket-history call is issued
and the report's table is the "No open tickets found" placeholder; but a
reply parsing to a truthy non-object aborts instead of degrading. -/
theorem c10_failed_or_unparseable_reply_placeholder :
    (∀ env : Env,
        (safe_json_loads (activeText env) = none ∨
         (∃ v, safe_json_loads (activeText env) = some v ∧ truthy v = false)) →
        activeOf env = .ok ([], []) ∧
        scenario3 env = .ok (emptyReport env, [activeRec env])) ∧
    (∀ (env : Env) (en em : Str), env .dataAgent listActiveMsg = .fail en em →
        safe_json_loads (activeText env) = none) ∧
    (∀ (env : Env) (kvs : List (Str × Json)),
        safe_json_loads (activeText env) = some (Json.obj kvs) →
        truthy ((objLookup kvs (("customers").toList)).getD Json.null) = false →
        truthy ((objLookup kvs (("content").toList)).getD Json.null) = false →
        activeOf env = .ok ([], []) ∧
        scenario3 env = .ok (emptyReport env, [activeRec env])) ∧
    containsSub (("No open tickets found").toList) (tableHeader ++ placeholderTail) = true := by
  have hOf : ∀ env : Env,
      (safe_json_loads (activeText env) = none ∨
       (∃ v, safe_json_loads (activeText env) = some v ∧ truthy v = false)) →
      activeOf env = .ok ([], []) := by
    intro env h
    rcases h with h | ⟨v, hv, htr⟩
    · rw [activeOf, activeParse, h]
    · rw [activeOf, activeParse, hv]
      simp only [htr, Bool.false_eq_true, if_false]
  refine ⟨?_, ?_, ?_, ?_⟩
  · intro env h
    have := hOf env h
    exact ⟨this, scenario3_of_no_ids env this⟩
  · exact activeText_of_fail
  · intro env kvs hv h2 h3
    cases htr : truthy (Json.obj kvs) with
    | false =>
        have := hOf env (Or.inr ⟨Json.obj kvs, hv, htr⟩)
        exact ⟨this, scenario3_of_no_ids env this⟩
    | true =>
        have hext : extractListField (Json.obj kvs) (("customers").toList) =
            .ok (Json.arr []) := by
          rw [extractListField]
          simp only [pyGet, pyGetD, pyBind_ok]
          rw [h2]
          simp only [Bool.false_eq_true, if_false]
          rw [h3]
          rfl
        have hact : activeOf env = .ok ([], []) := by
          rw [activeOf, activeParse, hv]
          simp only [htr, if_true]
          rw [hext]
          rfl
        exact ⟨hact, scenario3_of_no_ids env hact⟩
  · decide

/-- C10 witness: a concrete unparseable reply yields the placeholder report. -/
theorem c10_placeholder_witness :
    activeOf (fun _ _ => CallOutcome.ok (("no json here").toList)) = .ok ([], []) ∧
    scenario3 (fun _ _ => CallOutcome.ok (("no json here").toList)) =
      .ok (emptyReport (fun _ _ => CallOutcome.ok (("no json here").toList)),
           [activeRec (fun _ _ => CallOutcome.ok (("no json here").toList))]) :=
  c10_failed_or_unparseable_reply_placeholder.1
    (fun _ _ => CallOutcome.ok (("no json here").toList)) (Or.inl (by rfl))

/-!
## Substring helpers for reasoning about assembled answers
-/

/-- Python `in` holds for any infix. -/
theorem containsSub_of_infix {needle hay : Str} (h : needle <:+: hay) :
    containsSub needle hay = true := by
  induction hay with
  | nil =>
      rw [List.infix_nil] at h
      subst h
      rfl
  | cons c rest ih =>
      rw [containsSub]
      rcases List.infix_cons_iff.mp h with h | h
      · rw [List.isPrefixOf_iff_prefix.mpr h]
        rfl
      · rw [ih h]
        simp

/-- Every line of a joined list is an infix of the join. -/
theorem infix_joinSep {sep : Str} {x : Str} {ls : List Str} (h : x ∈ ls) :
    x <:+: joinSep sep ls := by
  induction ls with
  | nil => exact absurd h (by simp)
  | cons y ys ih =>
      cases ys with
      | nil =>
          rcases List.mem_singleton.mp h with rfl
          exact List.infix_refl x
      | cons z zs =>
          rcases List.mem_cons.mp h with rfl | h
          · show x <:+: x ++ sep ++ joinSep sep (z :: zs)
            rw [List.append_assoc]
            exact (List.prefix_append x (sep ++ joinSep sep (z :: zs))).isInfix
          · obtain ⟨s, t, he⟩ := ih h
            refine ⟨y ++ sep ++ s, t, ?_⟩
            show y ++ sep ++ s ++ x ++ t = y ++ sep ++ joinSep sep (z :: zs)
            rw [← he]
            simp [List.append_assoc]

/-- A line of the reply list occurs in the rendered reply. -/
theorem containsSub_joinNl {x : Str} {ls : List Str} (h : x ∈ ls) :
    containsSub x (joinNl ls) = true :=
  containsSub_of_infix (infix_joinSep h)

/-- Environment for the C4 instances: the support agent answers, the data
agent raises. -/
def c4Env : Env := fun tag _ =>
  match tag with
  | .supportAgent => CallOutcome.ok (("SUP").toList)
  | .dataAgent => CallOutcome.fail (("ConnectError").toList) (("boom").toList)

/-- Input text for the C4 instances (cancel + billing + customer id). -/
def c4Text : Str := ("cancel billing customer id 5").toList

/-- C4 counterexample: with the data agent failing, the final answer still
contains the "Customer context" section — carrying the failure description —
rather than omitting it: `call_agent` returns a non-empty failure string and
the `if data_text:` guard therefore includes the section. -/
theorem c4_context_included_on_failure_counterexample :
    c4Env .dataAgent (getProfileMsg 5) =
      CallOutcome.fail (("ConnectError").toList) (("boom").toList) ∧
    handle_router c4Env c4Text = .ok (scenario2 c4Env c4Text (some 5)) ∧
    containsSub (("Customer context (Data Agent):").toList)
      (scenario2 c4Env c4Text (some 5)).1 = true ∧
    containsSub (("DATA call failed: ConnectError: boom").toList)
      (scenario2 c4Env c4Text (some 5)).1 = true :=
  ⟨rfl, rfl, by decide, by decide⟩

/-- C4 (amended): in the cancel+billing branch a data-agent failure does not
omit the "Customer context" section — the section is included and carries the
failure description, while the support reply is still returned; the section
is omitted exactly when no customer id was detected. -/
theorem c4_data_failure_keeps_context_with_failure_text :
    (∀ (env : Env) (text : Str) (n : Int) (en em : Str),
        (detect_intent text).list_active_open = false →
        (detect_intent text).cancel = true →
        (detect_intent text).billing = true →
        extract_customer_id text = some n →
        env .dataAgent (getProfileMsg n) = .fail en em →
        handle_router env text = .ok (scenario2 env text (some n)) ∧
        containsSub (("Customer context (Data Agent):").toList)
          (scenario2 env text (some n)).1 = true ∧
        containsSub ((("DATA call failed: ").toList) ++ en ++ ((": ").toList) ++ em)
          (scenario2 env text (some n)).1 = true ∧
        (∀ st : Str, env .supportAgent text = .ok st →
            containsSub st (scenario2 env text (some n)).1 = true)) ∧
    (∀ (env : Env) (text : Str),
        (detect_intent text).list_active_open = false →
        (detect_intent text).cancel = true →
        (detect_intent text).billing = true →
        extract_customer_id text = none →
        handle_router env text = .ok (scenario2 env text none) ∧
        (scenario2 env text none).1 =
          joinNl
            ([("Coordinated answer (Router -> Support, with Data context if available):").toList,
              [], ("Support response:").toList,
              ((call_agent env .supportAgent text).1).2, [],
              ("A2A log (short):").toList] ++
             renderLog [(call_agent env .supportAgent text).2])) := by
  constructor
  · intro env text n en em h5 h3 h4 hcid hfail
    have hb : routerBranch (detect_intent text) = RouterBranch.cancelBilling := by
      rw [routerBranch, h5, h3, h4]
      rfl
    have hdisp : handle_router env text = .ok (scenario2 env text (some n)) := by
      rw [handle_router_dispatch, hb, hcid]
    have hd : ((call_agent env .dataAgent (getProfileMsg n)).1).2 =
        (("DATA call failed: ").toList) ++ en ++ ((": ").toList) ++ em := by
      rw [call_agent, hfail]
      rfl
    have hout : (scenario2 env text (some n)).1 =
        joinNl (scenario2Lines ((("DATA call failed: ").toList) ++ en ++ ((": ").toList) ++ em)
          ((call_agent env .supportAgent text).1).2
          [(call_agent env .supportAgent text).2,
           (call_agent env .dataAgent (getProfileMsg n)).2]) := by
      rw [scenario2]
      rw [hd]
    have hlines : scenario2Lines
        ((("DATA call failed: ").toList) ++ en ++ ((": ").toList) ++ em)
        ((call_agent env .supportAgent text).1).2
        [(call_agent env .supportAgent text).2,
         (call_agent env .dataAgent (getProfileMsg n)).2] =
        [("Coordinated answer (Router -> Support, with Data context if available):").toList,
         [], ("Customer context (Data Agent):").toList,
         (("DATA call failed: ").toList) ++ en ++ ((": ").toList) ++ em, [],
         ("Support response:").toList, ((call_agent env .supportAgent text).1).2, [],
         ("A2A log (short):").toList] ++
        renderLog [(call_agent env .supportAgent text).2,
                   (call_agent env .dataAgent (getProfileMsg n)).2] := by
      rw [scenario2Lines]
      rfl
    refine ⟨hdisp, ?_, ?_, ?_⟩
    · rw [hout, hlines]
      exact containsSub_joinNl (by simp)
    · rw [hout, hlines]
      exact containsSub_joinNl (by simp)
    · intro st hst
      have hs : ((call_agent env .supportAgent text).1).2 = st := by
        rw [call_agent, hst]
      rw [hout, hlines, ← hs]
      exact containsSub_joinNl (by simp)
  · intro env text h5 h3 h4 hcid
    have hb : routerBranch (detect_intent text) = RouterBranch.cancelBilling := by
      rw [routerBranch, h5, h3, h4]
      rfl
    have hdisp : handle_router env text = .ok (scenario2 env text none) := by
      rw [handle_router_dispatch, hb, hcid]
    exact ⟨hdisp, rfl⟩

/-- C4 witness: concrete failing data call with the context section present
and the support reply included. -/
theorem c4_data_failure_witness :
    handle_router c4Env c4Text = .ok (scenario2 c4Env c4Text (some 5)) ∧
    containsSub (("Customer context (Data Agent):").toList)
      (scenario2 c4Env c4Text (some 5)).1 = true :=
  ⟨(c4_data_failure_keeps_context_with_failure_text.1 c4Env c4Text 5
      (("ConnectError").toList) (("boom").toList)
      (by decide) (by decide) (by decide) (by decide) rfl).1,
   (c4_data_failure_keeps_context_with_failure_text.1 c4Env c4Text 5
      (("ConnectError").toList) (("boom").toList)
      (by decide) (by decide) (by decide) (by decide) rfl).2.1⟩

/-- Bind of a failed `Except` computation. -/
theorem pyBind_err {α β : Type} (e : PyErr) (f : α → Except PyErr β) :
    (Except.error e >>= f : Except PyErr β) = .error e := rfl

/-- A response part of kind `text` with the given content. -/
def mkTextPart (s : Str) : Json :=
  Json.obj [((("kind").toList), Json.str (("text").toList)),
            ((("text").toList), Json.str s)]

/-- A downstream response whose result carries the given text parts. -/
def mkPartsResp (ps : List Str) : Json :=
  Json.obj [((("result").toList),
             Json.obj [((("parts").toList), Json.arr (ps.map mkTextPart))])]

/-- C5 counterexample: two text parts `a` and `b` are joined with an added
`"\n"` separator, so the reply is `a\nb`, not the separator-free
concatenation `ab`. -/
theorem c5_newline_separator_counterexample :
    extract_text_from_a2a (mkPartsResp [('a' :: []), ('b' :: [])]) =
      .ok ('a' :: '\n' :: 'b' :: []) ∧
    ('a' :: '\n' :: 'b' :: []) ≠ ('a' :: 'b' :: []) :=
  ⟨rfl, by decide⟩

theorem collectTexts_map (ps : List Str) :
    collectTexts (ps.map mkTextPart) = ps.map Json.str := by
  induction ps with
  | nil => rfl
  | cons p rest ih =>
      show collectTexts (mkTextPart p :: rest.map mkTextPart) = Json.str p :: rest.map Json.str
      rw [show mkTextPart p = Json.obj [((("kind").toList), Json.str (("text").toList)),
          ((("text").toList), Json.str p)] from rfl]
      rw [collectTexts]
      rw [ih]
      rfl

theorem mapM_jsonAsStr (l : List Str) :
    (l.map Json.str).mapM jsonAsStr = (.ok l : Except PyErr (List Str)) := by
  induction l with
  | nil => rfl
  | cons x rest ih =>
      rw [List.map_cons, List.mapM_cons, ih]
      rfl

/-- C5 (amended): reply extraction keeps the text parts in order but joins
the non-empty ones with a `"\n"` separator and strips the result; when there
is no result key, or the joined text is empty, the serialized response is
returned instead — so the returned reply is never the empty string. -/
theorem c5_reply_join_and_nonempty :
    (∀ (resp : Json) (s : Str), extract_text_from_a2a resp = .ok s → s ≠ []) ∧
    (∀ ps : List Str,
        extract_text_from_a2a (mkPartsResp ps) =
          .ok (if (stripL (joinNl (ps.filter (fun t => !t.isEmpty)))).isEmpty
               then dumps (mkPartsResp ps)
               else stripL (joinNl (ps.filter (fun t => !t.isEmpty))))) ∧
    (∀ resp : Json, pyIn (("result").toList) resp = .ok false →
        extract_text_from_a2a resp = .ok (dumps resp)) := by
  refine ⟨?_, ?_, ?_⟩
  · intro resp s h
    rw [extract_text_from_a2a] at h
    cases hb : pyIn (("result").toList) resp with
    | error e => rw [hb, pyBind_err] at h; exact absurd h (by simp)
    | ok b =>
        rw [hb, pyBind_ok] at h
        cases b with
        | false =>
            simp only [Bool.not_false, if_true] at h
            injection h with h
            subst h
            exact dumps_ne_nil resp
        | true =>
            simp only [Bool.not_true, Bool.false_eq_true, if_false] at h
            cases hres : pyIndex resp (("result").toList) with
            | error e => rw [hres, pyBind_err] at h; exact absurd h (by simp)
            | ok res =>
                rw [hres, pyBind_ok] at h
                cases hpr : pyGetD res (("parts").toList) (Json.arr []) with
                | error e => rw [hpr, pyBind_err] at h; exact absurd h (by simp)
                | ok partsRaw =>
                    rw [hpr, pyBind_ok] at h
                    cases hit : pyIter (if truthy partsRaw then partsRaw else Json.arr []) with
                    | error e => rw [hit, pyBind_err] at h; exact absurd h (by simp)
                    | ok items =>
                        rw [hit, pyBind_ok] at h
                        cases hms : ((collectTexts items).filter truthy).mapM jsonAsStr with
                        | error e => rw [hms, pyBind_err] at h; exact absurd h (by simp)
                        | ok strs =>
                            rw [hms, pyBind_ok] at h
                            by_cases hout : (stripL (joinNl strs)).isEmpty = true
                            · rw [hout] at h
                              simp only [if_true] at h
                              injection h with h
                              subst h
                              exact dumps_ne_nil resp
                            · rw [Bool.not_eq_true] at hout
                              rw [hout] at h
                              simp only [Bool.false_eq_true, if_false] at h
                              injection h with h
                              subst h
                              intro hnil
                              rw [hnil] at hout
                              exact absurd hout (by simp)
  · intro ps
    rw [extract_text_from_a2a]
    rw [show pyIn (("result").toList) (mkPartsResp ps) = .ok true from rfl, pyBind_ok]
    simp only [Bool.not_true, Bool.false_eq_true, if_false]
    rw [show pyIndex (mkPartsResp ps) (("result").toList) =
        .ok (Json.obj [((("parts").toList), Json.arr (ps.map mkTextPart))]) from rfl,
        pyBind_ok]
    rw [show pyGetD (Json.obj [((("parts").toList), Json.arr (ps.map mkTextPart))])
        (("parts").toList) (Json.arr []) = .ok (Json.arr (ps.map mkTextPart)) from rfl,
        pyBind_ok]
    have htr : (if truthy (Json.arr (ps.map mkTextPart)) then Json.arr (ps.map mkTextPart)
        else Json.arr []) = Json.arr (ps.map mkTextPart) := by
      cases hps : ps.map mkTextPart with
      | nil => simp [truthy]
      | cons a l => simp [truthy]
    rw [htr]
    rw [show pyIter (Json.arr (ps.map mkTextPart)) = .ok (ps.map mkTextPart) from rfl,
        pyBind_ok]
    rw [collectTexts_map]
    rw [show (ps.map Json.str).filter truthy =
        (ps.filter (fun t => !t.isEmpty)).map Json.str from by
      rw [List.filter_map]
      rfl]
    rw [mapM_jsonAsStr, pyBind_ok]
  · intro resp h
    rw [extract_text_from_a2a, h, pyBind_ok]
    rfl

/-- C5 witness: concrete instances of the join equation and non-emptiness. -/
theorem c5_reply_join_witness :
    extract_text_from_a2a (mkPartsResp [('a' :: []), [], ('b' :: [])]) =
      .ok (if (stripL (joinNl ([('a' :: []), [], ('b' :: [])].filter
              (fun t => !t.isEmpty)))).isEmpty
           then dumps (mkPartsResp [('a' :: []), [], ('b' :: [])])
           else stripL (joinNl ([('a' :: []), [], ('b' :: [])].filter
              (fun t => !t.isEmpty)))) ∧
    ('a' :: '\n' :: 'b' :: []) ≠ [] :=
  ⟨c5_reply_join_and_nonempty.2.1 [('a' :: []), [], ('b' :: [])],
   c5_reply_join_and_nonempty.1 (mkPartsResp [('a' :: []), [], ('b' :: [])])
     ('a' :: '\n' :: 'b' :: []) (by rfl)⟩

/-!
## Escaping facts for the markdown formatter
-/

/-- Membership in a stripped string implies membership in the original. -/
theorem mem_of_mem_stripL {c : Char} {l : Str} (h : c ∈ stripL l) : c ∈ l := by
  rw [stripL] at h
  rw [List.mem_reverse] at h
  have h2 := (List.dropWhile_sublist isSpaceChar).subset h
  rw [List.mem_reverse] at h2
  exact (List.dropWhile_sublist isSpaceChar).subset h2

/-- The escaped cell text contains no newline: newlines were collapsed to
spaces and the escape step introduces only backslashes and pipes. -/
theorem md_escape_no_nl (s : Str) : '\n' ∉ md_escape_str s := by
  intro hm
  have h1 : '\n' ∈ mdEscapeCore s := mem_of_mem_stripL hm
  rw [mdEscapeCore, List.mem_flatMap] at h1
  obtain ⟨a, ha, hin⟩ := h1
  obtain ⟨b, _, hb⟩ := List.mem_map.mp ha
  rw [escPipeChar] at hin
  by_cases hba : a = '|'
  · rw [if_pos hba] at hin
    exact absurd hin (by decide)
  · rw [if_neg hba] at hin
    rw [List.mem_singleton] at hin
    subst hin
    rw [collapseNl] at hb
    by_cases hnl : b = '\n'
    · rw [if_pos hnl] at hb
      exact absurd hb (by decide)
    · rw [if_neg hnl] at hb
      exact hnl hb

/-- In the output of the escape step, every literal pipe is immediately
preceded by a backslash. -/
theorem mdEscapeCore_pipes (s : Str) :
    ∀ pre post : Str, mdEscapeCore s = pre ++ '|' :: post →
      ∃ pre2, pre = pre2 ++ ['\\'] := by
  induction s with
  | nil =>
      intro pre post h
      rw [mdEscapeCore] at h
      exact absurd h.symm (by simp)
  | cons c rest ih =>
      intro pre post h
      rw [mdEscapeCore, List.map_cons, List.flatMap_cons] at h
      rw [show (List.map collapseNl rest).flatMap escPipeChar = mdEscapeCore rest from rfl] at h
      by_cases hc : collapseNl c = '|'
      · rw [hc, show escPipeChar '|' = '\\' :: '|' :: [] from rfl] at h
        rw [show (['\\', '|'] : Str) ++ mdEscapeCore rest =
            '\\' :: '|' :: mdEscapeCore rest from rfl] at h
        cases pre with
        | nil => simp at h
        | cons p1 pre1 =>
            rw [List.cons_append, List.cons.injEq] at h
            obtain ⟨hp1, h⟩ := h
            cases pre1 with
            | nil => exact ⟨[], by rw [← hp1]; rfl⟩
            | cons p2 pre2 =>
                rw [List.cons_append, List.cons.injEq] at h
                obtain ⟨hp2, h⟩ := h
                obtain ⟨pre3, hpre3⟩ := ih pre2 post h
                exact ⟨p1 :: p2 :: pre3, by rw [hpre3]; rfl⟩
      · rw [show escPipeChar (collapseNl c) = [collapseNl c] from by
            rw [escPipeChar, if_neg hc]] at h
        cases pre with
        | nil =>
            rw [List.nil_append, List.singleton_append, List.cons.injEq] at h
            exact absurd h.1 hc
        | cons p1 pre1 =>
            rw [List.singleton_append, List.cons_append, List.cons.injEq] at h
            obtain ⟨hp1, h⟩ := h
            obtain ⟨pre3, hpre3⟩ := ih pre1 post h
            exact ⟨p1 :: pre3, by rw [hpre3]; rfl⟩

/-- `stripL` removes only whitespace, from the two ends. -/
theorem stripL_decomp (l : Str) :
    ∃ a b : Str, l = a ++ stripL l ++ b ∧ (∀ c ∈ a, isSpaceChar c = true) ∧
      (∀ c ∈ b, isSpaceChar c = true) := by
  refine ⟨l.takeWhile isSpaceChar,
          (List.takeWhile isSpaceChar (l.dropWhile isSpaceChar).reverse).reverse, ?_, ?_, ?_⟩
  · conv_lhs => rw [← List.takeWhile_append_dropWhile (p := isSpaceChar) (l := l)]
    rw [List.append_assoc]
    congr 1
    rw [stripL]
    conv_lhs => rw [← List.reverse_reverse (List.dropWhile isSpaceChar l)]
    rw [← List.reverse_append]
    congr 1
    rw [List.takeWhile_append_dropWhile]
  · intro c hc
    exact List.mem_takeWhile_imp hc
  · intro c hc
    rw [List.mem_reverse] at hc
    exact List.mem_takeWhile_imp hc

/-- In an escaped cell value, every literal pipe is immediately preceded by a
backslash (the strip step cannot separate them). -/
theorem md_escape_pipes (s : Str) :
    ∀ pre post : Str, md_escape_str s = pre ++ '|' :: post →
      ∃ pre2, pre = pre2 ++ ['\\'] := by
  intro pre post h
  obtain ⟨a, b, hl, has, _⟩ := stripL_decomp (mdEscapeCore s)
  rw [md_escape_str] at h
  rw [h] at hl
  have hcore : mdEscapeCore s = (a ++ pre) ++ '|' :: (post ++ b) := by
    rw [hl]
    simp [List.append_assoc]
  obtain ⟨pre2, hpre2⟩ := mdEscapeCore_pipes s (a ++ pre) (post ++ b) hcore
  induction pre using List.reverseRecOn with
  | nil =>
      exfalso
      have hmem : '\\' ∈ a := by
        rw [List.append_nil] at hpre2
        rw [hpre2]
        simp
      have := has '\\' hmem
      exact absurd this (by decide)
  | append_singleton init lastc _ih =>
      have hlast : lastc = '\\' := by
        have h1 : (a ++ (init ++ [lastc])).getLast? = (pre2 ++ ['\\']).getLast? := by
          rw [hpre2]
        rw [← List.append_assoc, List.getLast?_concat, List.getLast?_concat] at h1
        injection h1
      exact ⟨init, by rw [hlast]⟩

/-- The header line is a prefix of a table that starts with it. -/
theorem tableHeader_prefix_joinNl (ls : List Str) :
    tableHeader.isPrefixOf (joinNl (tableHeader :: ls)) = true := by
  cases ls with
  | nil => exact List.isPrefixOf_iff_prefix.mpr (List.prefix_refl _)
  | cons l ls2 =>
      rw [show joinNl (tableHeader :: l :: ls2) =
          tableHeader ++ ['\n'] ++ joinSep ['\n'] (l :: ls2) from rfl]
      rw [List.append_assoc]
      exact List.isPrefixOf_iff_prefix.mpr (List.prefix_append _ _)

/-- The row of the C6 instances: a string-valued ticket id carrying a literal
pipe. -/
def c6Row : Row :=
  { customer_id := Json.num 1, customer_name := Json.str [], email := Json.str [],
    ticket_id := Json.str ('9' :: '|' :: 'x' :: []), priority := Json.str [],
    status := Json.str [], issue := Json.str [] }

/-- C6 counterexample: the `ticket_id` cell is inserted unescaped — the
rendered row contains the raw `9|x`, although `_md_escape` would have
produced `9\|x`; so not every cell value is escaped. -/
theorem c6_unescaped_id_cells_counterexample :
    make_md_table [c6Row] =
      .ok (tableHeader ++ (("\n| 1 |  |  | 9|x |  |  |  |").toList)) ∧
    md_escape_str ('9' :: '|' :: 'x' :: []) = '9' :: '\\' :: '|' :: 'x' :: [] :=
  ⟨rfl, rfl⟩

/-- C6 (amended): the fixed seven-column header always opens the table; the
empty row list yields exactly the single placeholder row reading "No open
tickets found"; the escaped cells (`customer_name`, `email`, `priority`,
`status`, `issue`) contain no newline and carry a backslash before every
literal pipe; but the `customer_id` and `ticket_id` cells are inserted
without escaping. -/
theorem c6_header_placeholder_and_escaping :
    make_md_table [] = .ok (tableHeader ++ placeholderTail) ∧
    containsSub (("No open tickets found").toList) (tableHeader ++ placeholderTail) = true ∧
    (∀ (rows : List Row) (s : Str), make_md_table rows = .ok s →
        tableHeader.isPrefixOf s = true) ∧
    (∀ s : Str, '\n' ∉ md_escape_str s) ∧
    (∀ s pre post : Str, md_escape_str s = pre ++ '|' :: post →
        ∃ pre2, pre = pre2 ++ ['\\']) := by
  refine ⟨rfl, by decide, ?_, md_escape_no_nl, md_escape_pipes⟩
  intro rows s h
  cases rows with
  | nil =>
      rw [make_md_table] at h
      simp only [List.isEmpty_nil, if_true] at h
      injection h with h
      subst h
      exact List.isPrefixOf_iff_prefix.mpr (List.prefix_append _ _)
  | cons r rs =>
      rw [make_md_table] at h
      simp only [List.isEmpty_cons, Bool.false_eq_true, if_false] at h
      cases hm : (r :: rs).mapM make_md_row with
      | error e => rw [hm, pyBind_err] at h; exact absurd h (by simp)
      | ok lines =>
          rw [hm, pyBind_ok] at h
          injection h with h
          subst h
          exact tableHeader_prefix_joinNl lines

/-- C6 witness: the header prefixes the empty table, and a concrete escaped
pipe is preceded by a backslash. -/
theorem c6_header_escaping_witness :
    tableHeader.isPrefixOf (tableHeader ++ placeholderTail) = true ∧
    (∃ pre2, ('a' :: '\\' :: []) = pre2 ++ ['\\']) :=
  ⟨c6_header_placeholder_and_escaping.2.2.1 [] (tableHeader ++ placeholderTail) (by rfl),
   c6_header_placeholder_and_escaping.2.2.2.2 ('a' :: '|' :: 'b' :: [])
     ('a' :: '\\' :: []) ('b' :: []) (by rfl)⟩

/-!
## Fan-out report lemmas (Scenario 3)
-/

theorem pyEqStr_eq {v : Json} {s : Str} (h : pyEqStr v s = true) : v = Json.str s := by
  cases v with
  | str t => exact congrArg Json.str (eq_of_beq h)
  | null => exact absurd h (by simp [pyEqStr])
  | bool b => exact absurd h (by simp [pyEqStr])
  | num n => exact absurd h (by simp [pyEqStr])
  | arr l => exact absurd h (by simp [pyEqStr])
  | obj kvs => exact absurd h (by simp [pyEqStr])

theorem lookup_open {o : Option Json}
    (h : pyEqStr (o.getD Json.null) (("open").toList) = true) :
    o = some (Json.str (("open").toList)) := by
  cases o with
  | none => exact absurd h (by simp [pyEqStr])
  | some x =>
      rw [Option.getD_some] at h
      rw [pyEqStr_eq h]

theorem ticketStep_spec (m : List (Int × Json)) (cid : Int) (acc : List Row) (t : Json)
    (hacc : ∀ r ∈ acc, r.status = Json.str (("open").toList) ∧ r.customer_id = Json.num cid) :
    ∀ r ∈ ticketStep m cid acc t,
      r.status = Json.str (("open").toList) ∧ r.customer_id = Json.num cid := by
  intro r hr
  cases t with
  | obj kvs =>
      rw [ticketStep] at hr
      by_cases hop : pyEqStr ((objLookup kvs (("status").toList)).getD Json.null)
          (("open").toList) = true
      · rw [if_pos hop] at hr
        rcases List.mem_append.mp hr with hr | hr
        · exact hacc r hr
        · rw [List.mem_singleton] at hr
          subst hr
          constructor
          · show (objLookup kvs (("status").toList)).getD (Json.str []) =
              Json.str (("open").toList)
            rw [lookup_open hop]
            rfl
          · rfl
      · rw [if_neg hop] at hr
        exact hacc r hr
  | null => exact hacc r hr
  | bool b => exact hacc r hr
  | num n => exact hacc r hr
  | str s => exact hacc r hr
  | arr l => exact hacc r hr

theorem ticketRows_spec (m : List (Int × Json)) (cid : Int) (ts : List Json) :
    ∀ r ∈ ticketRows m cid ts,
      r.status = Json.str (("open").toList) ∧ r.customer_id = Json.num cid := by
  rw [ticketRows]
  have aux : ∀ (ts2 : List Json) (acc : List Row),
      (∀ r ∈ acc, r.status = Json.str (("open").toList) ∧ r.customer_id = Json.num cid) →
      ∀ r ∈ ts2.foldl (ticketStep m cid) acc,
        r.status = Json.str (("open").toList) ∧ r.customer_id = Json.num cid := by
    intro ts2
    induction ts2 with
    | nil =>
        intro acc hacc
        simpa using hacc
    | cons t rest ih =>
        intro acc hacc
        rw [List.foldl_cons]
        exact ih _ (ticketStep_spec m cid acc t hacc)
  exact aux ts [] (by simp)

theorem rowsForCustomer_spec (m : List (Int × Json)) (cid : Int) (text : Str)
    (rows : List Row) (h : rowsForCustomer m cid text = .ok rows) :
    ∀ r ∈ rows, r.status = Json.str (("open").toList) ∧ r.customer_id = Json.num cid := by
  rw [rowsForCustomer] at h
  cases hp : safe_json_loads text with
  | none =>
      rw [hp] at h
      injection h with h
      subst h
      simp
  | some hj =>
      rw [hp] at h
      dsimp only at h
      by_cases htr : truthy hj = true
      · rw [htr] at h
        simp only [if_true] at h
        cases he : extractListField hj (("tickets").toList) with
        | error e => rw [he, pyBind_err] at h; exact absurd h (by simp)
        | ok tickets =>
            rw [he, pyBind_ok] at h
            cases hi : pyIter tickets with
            | error e => rw [hi, pyBind_err] at h; exact absurd h (by simp)
            | ok items =>
                rw [hi, pyBind_ok] at h
                injection h with h
                subst h
                exact ticketRows_spec m cid items
      · rw [Bool.not_eq_true] at htr
        rw [htr] at h
        simp only [Bool.false_eq_true, if_false] at h
        injection h with h
        subst h
        simp

/-- The failure text of a data-agent call never parses as JSON. -/
theorem dataFail_text_parse_none (en em : Str) :
    safe_json_loads ((("DATA call failed: ").toList) ++ en ++ ((": ").toList) ++ em) = none :=
  rfl

theorem rowsForCustomer_of_env_fail (env : Env) (m : List (Int × Json)) (c : Int)
    (en em : Str) (h : env .dataAgent (histMsg c) = .fail en em) :
    rowsForCustomer m c (((call_agent env .dataAgent (histMsg c)).1).2) = .ok [] := by
  simp only [call_agent, h]
  rfl

theorem fanLoop_spec (env : Env) (m : List (Int × Json)) :
    ∀ (ids : List Int) (rows : List Row) (recs : List CallRec),
      fanLoop env m ids = .ok (rows, recs) →
      recs = ids.map (fun c => (call_agent env .dataAgent (histMsg c)).2) ∧
      (∀ r ∈ rows, r.status = Json.str (("open").toList) ∧
          ∃ c ∈ ids, r.customer_id = Json.num c) ∧
      (∀ (c : Int) (en em : Str), env .dataAgent (histMsg c) = .fail en em →
          ∀ r ∈ rows, r.customer_id ≠ Json.num c) := by
  intro ids
  induction ids with
  | nil =>
      intro rows recs h
      rw [fanLoop] at h
      injection h with h
      rw [Prod.mk.injEq] at h
      obtain ⟨h1, h2⟩ := h
      subst h1
      subst h2
      refine ⟨rfl, by simp, by simp⟩
  | cons c0 rest ih =>
      intro rows recs h
      rw [fanLoop] at h
      cases hr : rowsForCustomer m c0 (((call_agent env .dataAgent (histMsg c0)).1).2) with
      | error e => rw [hr, pyBind_err] at h; exact absurd h (by simp)
      | ok rowsC =>
          rw [hr, pyBind_ok] at h
          cases hf : fanLoop env m rest with
          | error e => rw [hf, pyBind_err] at h; exact absurd h (by simp)
          | ok q =>
              obtain ⟨rows2, recs2⟩ := q
              rw [hf, pyBind_ok] at h
              injection h with h
              rw [Prod.mk.injEq] at h
              obtain ⟨h1, h2⟩ := h
              subst h1
              subst h2
              obtain ⟨ihrecs, ihrows, ihfail⟩ := ih rows2 recs2 hf
              refine ⟨?_, ?_, ?_⟩
              · rw [List.map_cons, ihrecs]
              · intro r hmem
                rcases List.mem_append.mp hmem with hm | hm
                · obtain ⟨hst, hcid⟩ := rowsForCustomer_spec m c0 _ rowsC hr r hm
                  exact ⟨hst, c0, List.mem_cons_self c0 rest, hcid⟩
                · obtain ⟨hst, c, hcin, hcid⟩ := ihrows r hm
                  exact ⟨hst, c, List.mem_cons_of_mem c0 hcin, hcid⟩
              · intro c en em hfail r hmem
                rcases List.mem_append.mp hmem with hm | hm
                · by_cases hcc : c0 = c
                  · subst hcc
                    rw [rowsForCustomer_of_env_fail env m c0 en em hfail] at hr
                    injection hr with hr
                    subst hr
                    exact absurd hm (by simp)
                  · obtain ⟨_, hcid⟩ := rowsForCustomer_spec m c0 _ rowsC hr r hm
                    rw [hcid]
                    intro he
                    injection he with he
                    exact hcc he
                · exact ihfail c en em hfail r hm

theorem fanLoop_all_fail (env : Env) (m : List (Int × Json)) :
    ∀ ids : List Int,
      (∀ c ∈ ids, ∃ en em, env .dataAgent (histMsg c) = .fail en em) →
      fanLoop env m ids =
        .ok ([], ids.map (fun c => (call_agent env .dataAgent (histMsg c)).2)) := by
  intro ids
  induction ids with
  | nil => intro _; rfl
  | cons c0 rest ih =>
      intro h
      obtain ⟨en, em, hfail⟩ := h c0 (List.mem_cons_self c0 rest)
      rw [fanLoop]
      rw [rowsForCustomer_of_env_fail env m c0 en em hfail, pyBind_ok]
      rw [ih (fun c hc => h c (List.mem_cons_of_mem c0 hc)), pyBind_ok]
      rfl

/-- **C3.** Fan-out report branch: whenever `scenario3` succeeds, the history
calls are exactly one per id among the first 15 parsed active-customer ids (so
the log holds at most 16 entries including the initial listing call); every row
of the rendered (sorted) list has status `"open"` and the customer id of one of
those capped ids; a customer whose history call failed contributes no row; and
the sorted rows are ascending in `rowLe` (priority rank high=0, medium=1,
low=2, other=9, ties broken by ascending customer id). Moreover a failing
history call is skipped rather than fatal: with every history call failing the
fan-out loop still succeeds, with no rows and one log entry per id. -/
theorem c3_fanout_cap_open_filter_sort_skip :
    (∀ (env : Env) (out : Str × List CallRec),
        scenario3 env = .ok out →
        ∃ ids m rows recs,
          activeOf env = .ok (ids, m) ∧
          fanLoop env m (ids.take 15) = .ok (rows, recs) ∧
          recs = (ids.take 15).map (fun c => (call_agent env .dataAgent (histMsg c)).2) ∧
          out.2 = activeRec env :: recs ∧
          out.2.length ≤ 16 ∧
          (∀ r ∈ sortRows rows, r.status = Json.str (("open").toList) ∧
              ∃ c ∈ ids.take 15, r.customer_id = Json.num c) ∧
          (∀ (c : Int) (en em : Str), env .dataAgent (histMsg c) = .fail en em →
              ∀ r ∈ sortRows rows, r.customer_id ≠ Json.num c) ∧
          List.Pairwise rowLe (sortRows rows)) ∧
    (∀ (env : Env) (m : List (Int × Json)) (ids : List Int),
        (∀ c ∈ ids, ∃ en em, env .dataAgent (histMsg c) = .fail en em) →
        fanLoop env m ids =
          .ok ([], ids.map (fun c => (call_agent env .dataAgent (histMsg c)).2))) := by
  constructor
  · intro env out h
    rw [scenario3] at h
    cases ha : activeOf env with
    | error e => rw [ha, pyBind_err] at h; exact absurd h (by simp)
    | ok p =>
        obtain ⟨ids, m⟩ := p
        rw [ha, pyBind_ok] at h
        dsimp only at h
        cases hf : fanLoop env m (ids.take 15) with
        | error e => rw [hf, pyBind_err] at h; exact absurd h (by simp)
        | ok q =>
            obtain ⟨rows, recs⟩ := q
            rw [hf, pyBind_ok] at h
            dsimp only at h
            cases ht : make_md_table (sortRows rows) with
            | error e => rw [ht, pyBind_err] at h; exact absurd h (by simp)
            | ok table =>
                rw [ht, pyBind_ok] at h
                injection h with h
                subst h
                obtain ⟨hrecs, hrows, hfail⟩ := fanLoop_spec env m (ids.take 15) rows recs hf
                have hsub : ∀ r ∈ sortRows rows, r ∈ rows :=
                  fun r hr => (List.perm_insertionSort rowLe rows).subset hr
                refine ⟨ids, m, rows, recs, rfl, hf, hrecs, rfl, ?_, ?_, ?_, ?_⟩
                · simp only [List.length_cons, hrecs, List.length_map]
                  have := List.length_take_le 15 ids
                  omega
                · intro r hr
                  exact hrows r (hsub r hr)
                · intro c en em hfl r hr
                  exact hfail c en em hfl r (hsub r hr)
                · exact List.sorted_insertionSort rowLe rows
  · intro env m ids hall
    exact fanLoop_all_fail env m ids hall

theorem c3_fanout_witness :
    (∃ ids m rows recs,
        activeOf c3Env = .ok (ids, m) ∧
        fanLoop c3Env m (ids.take 15) = .ok (rows, recs) ∧
        recs = (ids.take 15).map (fun c => (call_agent c3Env .dataAgent (histMsg c)).2) ∧
        c3Out.2 = activeRec c3Env :: recs ∧
        c3Out.2.length ≤ 16 ∧
        (∀ r ∈ sortRows rows, r.status = Json.str (("open").toList) ∧
            ∃ c ∈ ids.take 15, r.customer_id = Json.num c) ∧
        (∀ (c : Int) (en em : Str), c3Env .dataAgent (histMsg c) = .fail en em →
            ∀ r ∈ sortRows rows, r.customer_id ≠ Json.num c) ∧
        List.Pairwise rowLe (sortRows rows)) ∧
    fanLoop c3FailEnv [] [(3 : Int)] =
      .ok ([], [(3 : Int)].map (fun c => (call_agent c3FailEnv .dataAgent (histMsg c)).2)) :=
  ⟨c3_fanout_cap_open_filter_sort_skip.1 c3Env c3Out (by rfl),
   c3_fanout_cap_open_filter_sort_skip.2 c3FailEnv [] [(3 : Int)]
     (fun c _hc => ⟨(("RuntimeError").toList), (("boom").toList), rfl⟩)⟩

/-- **C9.** Bridge concurrency: for any assignment of request tokens, tool
names and arguments to the caller threads, in every reachable state of the
lock protocol of `MCPStdioClient.call_tool` / `_mcp_call` the wire is the
concatenation of the complete request lines in submission order followed by
at most one partial line of the current lock holder; whenever no write is in
progress the wire is exactly the complete lines in order; every response a
thread has read is the one matching its own request; and each request line is
a newline-free non-empty JSON serialization terminated by a single `\n` (so
the lines on the wire are complete, individually valid, never interleaved). -/
theorem c9_bridge_lock_no_interleaving :
    ∀ (tok name : Nat → Str) (args : Nat → Json) (s : BridgeSys),
      BridgeReach (bridgeLine tok name args) s →
      (s.wire = linesFlat (bridgeLine tok name args) s.served ++
          midSeg (bridgeLine tok name args) s) ∧
      (midSeg (bridgeLine tok name args) s = [] →
          s.wire = linesFlat (bridgeLine tok name args) s.served) ∧
      (∀ t r, s.reads t = some r → r = t) ∧
      (∀ t, ∃ body, bridgeLine tok name args t = body ++ ['\n'] ∧
          '\n' ∉ body ∧ body ≠ []) := by
  intro tok name args s h
  obtain ⟨_, _, _, inv4, inv5⟩ := bridgeInv_reach h
  refine ⟨inv5, ?_, inv4, ?_⟩
  · intro hm
    rw [hm, List.append_nil] at inv5
    exact inv5
  · intro t
    exact ⟨dumps (bridgeReq (tok t) (name t) (args t)), rfl,
      dumps_no_nl _, dumps_ne_nil _⟩

theorem c9_bridge_witness :
    (c9S2.wire = linesFlat (bridgeLine c9Tok c9Name c9Args) c9S2.served ++
        midSeg (bridgeLine c9Tok c9Name c9Args) c9S2) ∧
    (midSeg (bridgeLine c9Tok c9Name c9Args) c9S2 = [] →
        c9S2.wire = linesFlat (bridgeLine c9Tok c9Name c9Args) c9S2.served) ∧
    (∀ t r, c9S2.reads t = some r → r = t) ∧
    (∀ t, ∃ body, bridgeLine c9Tok c9Name c9Args t = body ++ ['\n'] ∧
        '\n' ∉ body ∧ body ≠ []) :=
  c9_bridge_lock_no_interleaving c9Tok c9Name c9Args c9S2
    (BridgeReach.step
      (BridgeReach.step BridgeReach.init (BridgeStep.acquire initSys 0 rfl rfl))
      (BridgeStep.write c9S1 0 0 rfl rfl (by decide)))
